import Mathlib

set_option maxRecDepth 4000

/-!
Verification development for the gowarcraft3 BNCS client (`network/bnet/bnet.go`)
and the capi packet codec. The Go code is shallowly embedded: stateful
connection code becomes explicit state passing over a scripted world of
server responses, and external collaborators (SRP schemes, file system,
CD-key derivation) become explicit oracle parameters.
-/

namespace GW3

/-! ## Chat event handling (`Client.onChatEvent`) -/

/-- Chat event type constants from `protocol/bncs` (EID codes). -/
def chatShowUser : Nat := 0x01

def chatJoin : Nat := 0x02

def chatLeave : Nat := 0x03

def chatWhisper : Nat := 0x04

def chatTalk : Nat := 0x05

def chatBroadcast : Nat := 0x06

def chatChannelInfo : Nat := 0x07

def chatUserFlagsUpdate : Nat := 0x09

def chatChannelFull : Nat := 0x0D

def chatChannelDoesNotExist : Nat := 0x0E

def chatChannelRestricted : Nat := 0x0F

def chatInfo : Nat := 0x12

def chatError : Nat := 0x13

def chatEmote : Nat := 0x17

/-- Per-user channel state (`bnet.User`); times are abstract instants. -/
structure User where
  name : String
  statString : String
  flags : Nat
  ping : Nat
  joined : Nat
  lastSeen : Nat
  deriving Repr, DecidableEq

/-- Fields of a `bncs.ChatEvent` packet used by `onChatEvent`. -/
structure ChatEventPkt where
  type : Nat
  username : String
  text : String
  userFlags : Nat
  ping : Nat
  channelFlags : Nat
  deriving Repr, DecidableEq

/-- Client chat state: current channel plus the membership map
(`Client.channel`, `Client.users`), the map as an association list keyed
by lower-cased name. -/
structure ChatState where
  channel : String
  users : List (String × User)
  deriving Repr, DecidableEq

/-- Notifications fired by `onChatEvent` through the event bus. -/
inductive CEvent where
  | channel (name : String) (flags : Nat)
  | userJoined (u : User) (alreadyInChannel : Bool)
  | userUpdate (u : User)
  | userLeft (u : User)
  | chat (u : User) (content : String) (ctype : Nat)
  | whisper (username content : String) (flags ping : Nat)
  | joinError (channel : String) (err : Nat)
  | systemMessage (content : String) (ctype : Nat)
  deriving Repr, DecidableEq

/-- Lower-casing used for membership keys (`strings.ToLower`), mapped over
the character list so that it reduces structurally. -/
def toLowerStr (s : String) : String := ⟨s.data.map Char.toLower⟩

/-- Map lookup `b.users[key]`. -/
def lookupUser (us : List (String × User)) (k : String) : Option User :=
  (us.find? (fun e => e.1 = k)).map (·.2)

/-- Map store `b.users[key] = &u`: replace in place if present, else append. -/
def setUser (us : List (String × User)) (k : String) (u : User) :
    List (String × User) :=
  if us.any (fun e => e.1 = k) then
    us.map (fun e => if e.1 = k then (k, u) else e)
  else
    us ++ [(k, u)]

/-- Map delete `delete(b.users, key)`. -/
def delUser (us : List (String × User)) (k : String) : List (String × User) :=
  us.filter (fun e => ¬ e.1 = k)

/-- The user entry built from a "user shown"/"user joined" event (the `u`
literal in `onChatEvent`) with explicit joined/lastSeen instants. -/
def eventUser (pkt : ChatEventPkt) (j l : Nat) : User :=
  { name := pkt.username, statString := pkt.text, flags := pkt.userFlags,
    ping := pkt.ping, joined := j, lastSeen := l }

/-- Embedding of `Client.onChatEvent`: given the current chat state, the
received `bncs.ChatEvent` and the current time, produce the next state and
the list of notifications fired. -/
def onChatEvent (st : ChatState) (pkt : ChatEventPkt) (now : Nat) :
    ChatState × List CEvent :=
  if pkt.type = chatChannelInfo then
    ({ channel := pkt.text, users := [] },
     [.channel pkt.text pkt.channelFlags])
  else if pkt.type = chatShowUser ∨ pkt.type = chatJoin then
    let u0 : User :=
      { name := pkt.username, statString := pkt.text, flags := pkt.userFlags,
        ping := pkt.ping, joined := now, lastSeen := now }
    let key := toLowerStr pkt.username
    match lookupUser st.users key with
    | none =>
        ({ st with users := setUser st.users key u0 },
         [.userJoined u0 (pkt.type = chatShowUser)])
    | some p =>
        let u := { u0 with joined := p.joined, lastSeen := p.lastSeen }
        ({ st with users := setUser st.users key u }, [.userUpdate u])
  else if pkt.type = chatUserFlagsUpdate then
    let key := toLowerStr pkt.username
    match lookupUser st.users key with
    | none => (st, [])
    | some p =>
        let u := { p with flags := pkt.userFlags }
        ({ st with users := setUser st.users key u }, [.userUpdate u])
  else if pkt.type = chatLeave then
    let key := toLowerStr pkt.username
    match lookupUser st.users key with
    | none => ({ st with users := delUser st.users key }, [])
    | some p => ({ st with users := delUser st.users key }, [.userLeft p])
  else if pkt.type = chatTalk ∨ pkt.type = chatEmote then
    let key := toLowerStr pkt.username
    match lookupUser st.users key with
    | none => (st, [])
    | some p =>
        let u := { p with lastSeen := now }
        ({ st with users := setUser st.users key u },
         [.chat u pkt.text pkt.type])
  else if pkt.type = chatWhisper then
    (st, [.whisper pkt.username pkt.text pkt.userFlags pkt.ping])
  else if pkt.type = chatChannelFull ∨ pkt.type = chatChannelDoesNotExist ∨
      pkt.type = chatChannelRestricted then
    (st, [.joinError pkt.text pkt.type])
  else if pkt.type = chatBroadcast ∨ pkt.type = chatInfo ∨
      pkt.type = chatError then
    (st, [.systemMessage pkt.text pkt.type])
  else
    (st, [])

/-! ## Handshake orchestrator (`Client.Dial`, `Logon`, `CreateAccount`,
`ChangePassword`)

The live connection and every external collaborator are made explicit: the
server's behaviour is a script of received packets / read errors, sends are
recorded in a trace, and SRP / file-system / CD-key helpers are oracle
parameters. -/

/-- Result constants from `protocol/bncs`. -/
def authSuccess : Nat := 0

def logonSuccess : Nat := 0

def logonProofSuccess : Nat := 0

def logonProofRequireEmail : Nat := 14

def accountCreateSuccess : Nat := 0

def channelJoinFirst : Nat := 1

/-- Timeout (seconds) sentinel `network.NoTimeout`. -/
def noTimeout : Nat := 0

/-- Errors returned by the client; server result codes are classified
one-to-one into domain errors (`AuthResultToError` and friends), kept here
as tagged codes. -/
inductive BErr where
  | ioErr (code : Nat)
  | invalidServerSig
  | passwordVerification
  | authResult (r : Nat)
  | logonResult (r : Nat)
  | logonProofResult (r : Nat)
  | accountCreateResult (r : Nat)
  deriving Repr, DecidableEq

/-- Embedding of `AuthResultToError`. -/
def authResultToError (r : Nat) : BErr := .authResult r

/-- Embedding of `LogonResultToError`. -/
def logonResultToError (r : Nat) : BErr := .logonResult r

/-- Embedding of `LogonProofResultToError`. -/
def logonProofResultToError (r : Nat) : BErr := .logonProofResult r

/-- Embedding of `AccountCreateResultToError`. -/
def accountCreateResultToError (r : Nat) : BErr := .accountCreateResult r

/-- Fields of `bncs.AuthInfoResp` read by the client. -/
structure AuthInfoResp where
  serverToken : Nat
  valueString : Nat
  mpqFileName : Nat
  serverSignature : Nat
  deriving Repr, DecidableEq

/-- Fields of `bncs.AuthCheckResp` read by the client. -/
structure AuthCheckResp where
  result : Nat
  deriving Repr, DecidableEq

/-- Fields of `bncs.AuthAccountLogonResp` read by the client. -/
structure AuthAccountLogonResp where
  result : Nat
  salt : Nat
  serverKey : Nat
  deriving Repr, DecidableEq

/-- Fields of `bncs.AuthAccountLogonProofResp` read by the client. -/
structure AuthAccountLogonProofResp where
  result : Nat
  serverPasswordProof : Nat
  deriving Repr, DecidableEq

/-- Fields of `bncs.AuthAccountChangePassResp` read by the client. -/
structure AuthAccountChangePassResp where
  result : Nat
  salt : Nat
  serverKey : Nat
  deriving Repr, DecidableEq

/-- Fields of `bncs.AuthAccountChangePassProofResp` read by the client. -/
structure AuthAccountChangePassProofResp where
  result : Nat
  serverPasswordProof : Nat
  deriving Repr, DecidableEq

/-- Fields of `bncs.AuthAccountCreateResp` read by the client. -/
structure AuthAccountCreateResp where
  result : Nat
  deriving Repr, DecidableEq

/-- Fields of `bncs.EnterChatResp` read by the client. -/
structure EnterChatResp where
  uniqueName : String
  deriving Repr, DecidableEq

/-- Packets the server can deliver during the handshake. -/
inductive RPkt where
  | ping (n : Nat)
  | authInfoResp (p : AuthInfoResp)
  | authCheckResp (p : AuthCheckResp)
  | logonResp (p : AuthAccountLogonResp)
  | logonProofResp (p : AuthAccountLogonProofResp)
  | changePassResp (p : AuthAccountChangePassResp)
  | changePassProofResp (p : AuthAccountChangePassProofResp)
  | createAccountResp (p : AuthAccountCreateResp)
  | enterChatResp (p : EnterChatResp)
  | other (tag : Nat)
  deriving Repr, DecidableEq

/-- Packets the client sends during the handshake (`greeting` is the raw
`bncs.ProtocolGreeting` byte written by `DialWithConn`). -/
inductive SPkt where
  | greeting
  | authInfoReq (platformVersion platformTag : Nat)
  | ping (n : Nat)
  | authCheckReq (clientToken : Nat) (exeInfo : String) (exeVersion exeHash : Nat)
      (cdkeys : List Nat) (owner : String)
  | logonReq (clientKey : Nat) (username : String)
  | logonProofReq (proof : Nat)
  | setEmail (addr : String)
  | changePassReq (clientKey : Nat) (username : String)
  | changePassProofReq (proof newSalt newVerifier : Nat)
  | createAccountReq (username : String) (salt verifier : Nat)
  | netGamePort (port : Nat)
  | enterChatReq
  | joinChannel (flag : Nat) (channel : String)
  | chatCommand (text : List Nat)
  deriving Repr, DecidableEq

instance {ε α : Type} [DecidableEq ε] [DecidableEq α] :
    DecidableEq (Except ε α) := fun a b =>
  match a, b with
  | .ok x, .ok y =>
      if h : x = y then .isTrue (by rw [h])
      else .isFalse (fun hh => by cases hh; exact h rfl)
  | .error x, .error y =>
      if h : x = y then .isTrue (by rw [h])
      else .isFalse (fun hh => by cases hh; exact h rfl)
  | .ok _, .error _ => .isFalse (fun hh => by cases hh)
  | .error _, .ok _ => .isFalse (fun hh => by cases hh)

/-- Scripted connection world: packets still to be received, scripted send
outcomes (empty list means every send succeeds), the trace of sent packets,
the packets dispatched to the event bus, the timeout used by each
`NextPacket` call, and whether the connection was closed. -/
structure World where
  recvs : List (Except BErr RPkt)
  sendResults : List (Option Nat)
  sent : List SPkt
  fired : List RPkt
  timeouts : List Nat
  closed : Bool
  deriving Repr, DecidableEq

/-- Embedding of `conn.Send`: pops the next scripted send outcome (success
when the script is exhausted) and records the packet on success. -/
def sendW (p : SPkt) (w : World) : Option BErr × World :=
  match w.sendResults with
  | [] => (none, { w with sent := w.sent ++ [p] })
  | none :: rest =>
      (none, { w with sent := w.sent ++ [p], sendResults := rest })
  | some e :: rest => (some (.ioErr e), { w with sendResults := rest })

/-- Embedding of `bncsconn.Close`. -/
def closeW (w : World) : World := { w with closed := true }

/-- Platform descriptor (`bncs.AuthInfoReq`): the game version byte the
client branches on, plus the remaining payload as an opaque tag. -/
structure Platform where
  version : Nat
  tag : Nat
  deriving Repr, DecidableEq

/-- Embedding of `bnet.Config` (all fields). -/
structure Config where
  serverAddr : String
  keepAliveInterval : Nat
  platform : Platform
  binPath : String
  exeInfo : String
  exeVersion : Nat
  exeHash : Nat
  verifySignature : Bool
  sha1Auth : Bool
  username : String
  password : String
  cdKeyOwner : String
  cdKeys : List String
  gamePort : Nat
  deriving Repr, DecidableEq

/-- Client state: the embedded `Config` plus the `UniqueName` set on
successful logon. -/
structure Client where
  cfg : Config
  uniqueName : String

/-- Behaviour of an SRP scheme (`bnet.SRP` interface): client ephemeral
key, password proof, counter-proof verification, and salt+verifier
generation for account creation. -/
structure SRPS where
  clientKey : Nat
  passwordProof : Nat → Nat → Nat
  verifyPassword : Nat → Bool
  accountCreate : Except BErr (Nat × Nat)

/-- External collaborators: SRP constructors, executable inspection, file
checks, CD-key proof derivation, server-signature verification, the TCP
dial outcome, and the current time. -/
structure Env where
  newNLS : String → String → Except BErr SRPS
  newSHA1 : String → SRPS
  getExeInfo : String → Except BErr (Nat × String)
  fileExists : String → Bool
  checkRevision : Nat → List String → Nat → Except BErr Nat
  extractMPQNumber : Nat → Nat
  createBNCSKeyInfo : String → Nat → Nat → Except BErr Nat
  verifyServerSignature : Nat → Bool
  dialResult : Option BErr
  now : Nat

/-- Embedding of `Client.newSRP`. -/
def newSRP (cfg : Config) (env : Env) (password : String) : Except BErr SRPS :=
  if cfg.sha1Auth then .ok (env.newSHA1 password)
  else env.newNLS cfg.username password

/-- The read loop of `Client.sendAuthInfo`, recursing over the remaining
receive script: pings are echoed back, the expected `AuthInfoResp` is
returned, anything else is fired to the event bus; the first wait uses the
given timeout, later waits use `noTimeout`. -/
def authInfoGo (tmo : Nat) (l : List (Except BErr RPkt)) (w : World) :
    Except BErr AuthInfoResp × World :=
  match l with
  | [] => (.error (.ioErr 0), { w with recvs := [], timeouts := w.timeouts ++ [tmo] })
  | r :: rest =>
    let w1 : World := { w with recvs := rest, timeouts := w.timeouts ++ [tmo] }
    match r with
    | .error e => (.error e, w1)
    | .ok (.ping n) =>
        match w1.sendResults with
        | [] =>
            authInfoGo noTimeout rest { w1 with sent := w1.sent ++ [.ping n] }
        | none :: srest =>
            authInfoGo noTimeout rest
              { w1 with sent := w1.sent ++ [.ping n], sendResults := srest }
        | some e :: srest =>
            (.error (.ioErr e), { w1 with sendResults := srest })
    | .ok (.authInfoResp p) => (.ok p, w1)
    | .ok pkt => authInfoGo noTimeout rest { w1 with fired := w1.fired ++ [pkt] }

/-- Entry point of the `sendAuthInfo` read loop on the connection's
receive script. -/
def authInfoLoop (tmo : Nat) (w : World) : Except BErr AuthInfoResp × World :=
  authInfoGo tmo w.recvs w

/-- The shared read loop of the remaining handshake steps, recursing over
the remaining receive script: the packet selected by `sel` is returned,
anything else is fired to the event bus; the first wait uses the given
timeout, later waits use `noTimeout`. -/
def awaitGo (sel : RPkt → Option A) (tmo : Nat) (l : List (Except BErr RPkt))
    (w : World) : Except BErr A × World :=
  match l with
  | [] => (.error (.ioErr 0), { w with recvs := [], timeouts := w.timeouts ++ [tmo] })
  | r :: rest =>
    let w1 : World := { w with recvs := rest, timeouts := w.timeouts ++ [tmo] }
    match r with
    | .error e => (.error e, w1)
    | .ok pkt =>
        match sel pkt with
        | some a => (.ok a, w1)
        | none => awaitGo sel noTimeout rest { w1 with fired := w1.fired ++ [pkt] }

/-- Entry point of the shared read loop on the connection's receive
script. -/
def awaitLoop (sel : RPkt → Option A) (tmo : Nat) (w : World) :
    Except BErr A × World :=
  awaitGo sel tmo w.recvs w

/-- Selector for `bncs.AuthCheckResp` (the `switch` of `sendAuthCheck`). -/
def selAuthCheck : RPkt → Option AuthCheckResp
  | .authCheckResp p => some p
  | _ => none

/-- Selector for `bncs.AuthAccountLogonResp` (the `switch` of `sendLogon`). -/
def selLogon : RPkt → Option AuthAccountLogonResp
  | .logonResp p => some p
  | _ => none

/-- Selector for `bncs.AuthAccountLogonProofResp`. -/
def selLogonProof : RPkt → Option AuthAccountLogonProofResp
  | .logonProofResp p => some p
  | _ => none

/-- Selector for `bncs.AuthAccountChangePassResp`. -/
def selChangePass : RPkt → Option AuthAccountChangePassResp
  | .changePassResp p => some p
  | _ => none

/-- Selector for `bncs.AuthAccountChangePassProofResp`. -/
def selChangePassProof : RPkt → Option AuthAccountChangePassProofResp
  | .changePassProofResp p => some p
  | _ => none

/-- Selector for `bncs.AuthAccountCreateResp`. -/
def selCreateAccount : RPkt → Option AuthAccountCreateResp
  | .createAccountResp p => some p
  | _ => none

/-- Selector for `bncs.EnterChatResp`. -/
def selEnterChat : RPkt → Option EnterChatResp
  | .enterChatResp p => some p
  | _ => none

/-- Embedding of `Client.sendAuthInfo`: send the platform descriptor, then
run the ping-echoing read loop with a 10 second first timeout. -/
def sendAuthInfo (cfg : Config) (w : World) : Except BErr AuthInfoResp × World :=
  match sendW (.authInfoReq cfg.platform.version cfg.platform.tag) w with
  | (some e, w) => (.error e, w)
  | (none, w) => authInfoLoop 10 w

/-- The executable info/version/hash derivation of `Client.sendAuthCheck`:
config values are used when set, otherwise derived through the
executable-inspection collaborator and `CheckRevision`. -/
def deriveExeData (cfg : Config) (env : Env) (authinfo : AuthInfoResp) :
    Except BErr (String × Nat × Nat) :=
  if cfg.exeVersion = 0 ∨ cfg.exeHash = 0 then
    let exePath := if cfg.platform.version < 28 then cfg.binPath ++ "/war3.exe"
      else cfg.binPath ++ "/Warcraft III.exe"
    if env.fileExists exePath = false then .error (.ioErr 1)
    else
      match (if cfg.exeVersion = 0 then (env.getExeInfo exePath).map some
             else .ok none) with
      | .error e => .error e
      | .ok vi =>
        let exeVers := match vi with
          | some (v, _) => v
          | none => cfg.exeVersion
        let exeInfo := match vi with
          | some (_, i) => if cfg.exeInfo = "" then i else cfg.exeInfo
          | none => cfg.exeInfo
        if cfg.exeHash = 0 then
          match
            (if cfg.platform.version < 29 then
              if env.fileExists (cfg.binPath ++ "/Storm.dll") = false then
                Except.error (BErr.ioErr 1)
              else if env.fileExists (cfg.binPath ++ "/game.dll") = false then
                Except.error (BErr.ioErr 1)
              else Except.ok [exePath, cfg.binPath ++ "/Storm.dll",
                cfg.binPath ++ "/game.dll"]
            else Except.ok [exePath]) with
          | .error e => .error e
          | .ok files =>
            match env.checkRevision authinfo.valueString files
                (env.extractMPQNumber authinfo.mpqFileName) with
            | .error e => .error e
            | .ok h => .ok (exeInfo, exeVers, h)
        else .ok (exeInfo, exeVers, cfg.exeHash)
  else
    .ok (cfg.exeInfo, cfg.exeVersion, cfg.exeHash)

/-- The CD-key derivation loop of `Client.sendAuthCheck`. -/
def makeCDKeys (env : Env) (keys : List String) (clientToken serverToken : Nat) :
    Except BErr (List Nat) :=
  match keys with
  | [] => .ok []
  | k :: rest =>
    match env.createBNCSKeyInfo k clientToken serverToken with
    | .error e => .error e
    | .ok info =>
      match makeCDKeys env rest clientToken serverToken with
      | .error e => .error e
      | .ok more => .ok (info :: more)

/-- Embedding of `Client.sendAuthCheck`. -/
def sendAuthCheck (cfg : Config) (env : Env) (clientToken : Nat)
    (authinfo : AuthInfoResp) (w : World) : Except BErr AuthCheckResp × World :=
  match deriveExeData cfg env authinfo with
  | .error e => (.error e, w)
  | .ok (exeInfo, exeVers, exeHash) =>
    match makeCDKeys env cfg.cdKeys clientToken authinfo.serverToken with
    | .error e => (.error e, w)
    | .ok cdkeys =>
      match sendW (.authCheckReq clientToken exeInfo exeVers exeHash cdkeys
          cfg.cdKeyOwner) w with
      | (some e, w) => (.error e, w)
      | (none, w) => awaitLoop selAuthCheck 10 w

/-- Embedding of `Client.DialWithConn`: greeting byte, auth-info exchange,
optional server-signature check, then the version/CD-key auth check; any
failure closes the connection. -/
def DialWithConn (cfg : Config) (env : Env) (w : World) :
    Except BErr Unit × World :=
  match sendAuthInfo cfg { w with sent := w.sent ++ [SPkt.greeting] } with
  | (.error e, w) => (.error e, closeW w)
  | (.ok authInfo, w) =>
    if cfg.verifySignature &&
        !env.verifyServerSignature authInfo.serverSignature then
      (.error .invalidServerSig, closeW w)
    else
      match sendAuthCheck cfg env env.now authInfo w with
      | (.error e, w) => (.error e, closeW w)
      | (.ok authCheck, w) =>
        if authCheck.result ≠ authSuccess then
          (.error (authResultToError authCheck.result), closeW w)
        else (.ok (), w)

/-- Embedding of `strings.ContainsRune` over the character list so that it
reduces structurally. -/
def containsRune (s : String) (c : Char) : Bool := s.data.any (· = c)

/-- The `ServerAddr` normalization at the start of `Client.Dial`: append
the default port when the address has no `:`. -/
def normalizeServerAddr (cfg : Config) : Config :=
  if containsRune cfg.serverAddr ':' then cfg
  else { cfg with serverAddr := cfg.serverAddr ++ ":6112" }

/-- Embedding of `Client.Dial`: normalize the address, resolve/dial (the
scripted `dialResult`), then run `DialWithConn`. -/
def Dial (cfg : Config) (env : Env) (w : World) :
    Config × Except BErr Unit × World :=
  match env.dialResult with
  | some e => (normalizeServerAddr cfg, .error e, w)
  | none =>
    match DialWithConn (normalizeServerAddr cfg) env w with
    | (r, w) => (normalizeServerAddr cfg, r, w)

/-- Embedding of `Client.sendLogon`. -/
def sendLogon (cfg : Config) (srp : SRPS) (w : World) :
    Except BErr AuthAccountLogonResp × World :=
  match sendW (.logonReq srp.clientKey cfg.username) w with
  | (some e, w) => (.error e, w)
  | (none, w) => awaitLoop selLogon 15 w

/-- Embedding of `Client.sendLogonProof`. -/
def sendLogonProof (srp : SRPS) (logon : AuthAccountLogonResp) (w : World) :
    Except BErr AuthAccountLogonProofResp × World :=
  match sendW (.logonProofReq (srp.passwordProof logon.serverKey logon.salt)) w with
  | (some e, w) => (.error e, w)
  | (none, w) => awaitLoop selLogonProof 10 w

/-- Embedding of `Client.sendEnterChat`. -/
def sendEnterChat (cfg : Config) (w : World) : Except BErr EnterChatResp × World :=
  match sendW (.netGamePort cfg.gamePort) w with
  | (some e, w) => (.error e, w)
  | (none, w) =>
    match sendW .enterChatReq w with
    | (some e, w) => (.error e, w)
    | (none, w) => awaitLoop selEnterChat 10 w

/-- Embedding of `Client.sendCreateAccount`. -/
def sendCreateAccount (cfg : Config) (srp : SRPS) (w : World) :
    Except BErr AuthAccountCreateResp × World :=
  match srp.accountCreate with
  | .error e => (.error e, w)
  | .ok (salt, verifier) =>
    match sendW (.createAccountReq cfg.username salt verifier) w with
    | (some e, w) => (.error e, w)
    | (none, w) => awaitLoop selCreateAccount 10 w

/-- Embedding of `Client.sendChangePass`. -/
def sendChangePass (cfg : Config) (srp : SRPS) (w : World) :
    Except BErr AuthAccountChangePassResp × World :=
  match sendW (.changePassReq srp.clientKey cfg.username) w with
  | (some e, w) => (.error e, w)
  | (none, w) => awaitLoop selChangePass 15 w

/-- Embedding of `Client.sendChangePassProof`. -/
def sendChangePassProof (oldSRP newSRPv : SRPS)
    (resp : AuthAccountChangePassResp) (w : World) :
    Except BErr AuthAccountChangePassProofResp × World :=
  match newSRPv.accountCreate with
  | .error e => (.error e, w)
  | .ok (salt, verifier) =>
    match sendW (.changePassProofReq
        (oldSRP.passwordProof resp.serverKey resp.salt) salt verifier) w with
    | (some e, w) => (.error e, w)
    | (none, w) => awaitLoop selChangePassProof 10 w

/-- Embedding of `Client.Logon`: dial, account logon, logon proof (with
the require-email side step), local counter-proof verification, then enter
chat and join the default channel. -/
def Logon (cl : Client) (env : Env) (w : World) :
    Client × Except BErr Unit × World :=
  match newSRP cl.cfg env cl.cfg.password with
  | .error e => (cl, .error e, w)
  | .ok srp =>
    match Dial cl.cfg env w with
    | (cfg, .error e, w) => ({ cl with cfg := cfg }, .error e, w)
    | (cfg, .ok _, w) =>
      let cl := { cl with cfg := cfg }
      match sendLogon cfg srp w with
      | (.error e, w) => (cl, .error e, closeW w)
      | (.ok logon, w) =>
        if logon.result ≠ logonSuccess then
          (cl, .error (logonResultToError logon.result), closeW w)
        else
          match sendLogonProof srp logon w with
          | (.error e, w) => (cl, .error e, closeW w)
          | (.ok proof, w) =>
            let step : Option BErr × World :=
              if proof.result = logonProofSuccess then (none, w)
              else if proof.result = logonProofRequireEmail then
                sendW (.setEmail "") w
              else (some (logonProofResultToError proof.result), w)
            match step with
            | (some e, w) => (cl, .error e, closeW w)
            | (none, w) =>
              if !srp.verifyPassword proof.serverPasswordProof then
                (cl, .error .passwordVerification, closeW w)
              else
                match sendEnterChat cfg w with
                | (.error e, w) => (cl, .error e, closeW w)
                | (.ok chat, w) =>
                  match sendW (.joinChannel channelJoinFirst "W3") w with
                  | (some e, w) => (cl, .error e, closeW w)
                  | (none, w) =>
                    ({ cl with uniqueName := chat.uniqueName }, .ok (), w)

/-- Embedding of `Client.CreateAccount` (the deferred `Close` closes the
connection on success as well). -/
def CreateAccount (cl : Client) (env : Env) (w : World) :
    Client × Except BErr Unit × World :=
  match newSRP cl.cfg env cl.cfg.password with
  | .error e => (cl, .error e, w)
  | .ok srp =>
    match Dial cl.cfg env w with
    | (cfg, .error e, w) => ({ cl with cfg := cfg }, .error e, w)
    | (cfg, .ok _, w) =>
      let cl := { cl with cfg := cfg }
      match sendCreateAccount cfg srp w with
      | (.error e, w) => (cl, .error e, closeW w)
      | (.ok create, w) =>
        if create.result ≠ accountCreateSuccess then
          (cl, .error (accountCreateResultToError create.result), closeW w)
        else (cl, .ok (), closeW w)

/-- Embedding of `Client.ChangePassword` (the deferred `Close` closes the
connection on success as well; `Config.Password` is assigned only after
every check passes). -/
def ChangePassword (cl : Client) (env : Env) (newPassword : String)
    (w : World) : Client × Except BErr Unit × World :=
  match newSRP cl.cfg env cl.cfg.password with
  | .error e => (cl, .error e, w)
  | .ok oldSRP =>
    match newSRP cl.cfg env newPassword with
    | .error e => (cl, .error e, w)
    | .ok newSRPv =>
      match Dial cl.cfg env w with
      | (cfg, .error e, w) => ({ cl with cfg := cfg }, .error e, w)
      | (cfg, .ok _, w) =>
        let cl := { cl with cfg := cfg }
        match sendChangePass cfg oldSRP w with
        | (.error e, w) => (cl, .error e, closeW w)
        | (.ok resp, w) =>
          if resp.result ≠ logonSuccess then
            (cl, .error (logonResultToError resp.result), closeW w)
          else
            match sendChangePassProof oldSRP newSRPv resp w with
            | (.error e, w) => (cl, .error e, closeW w)
            | (.ok proof, w) =>
              if proof.result ≠ logonProofSuccess then
                (cl, .error (logonProofResultToError proof.result), closeW w)
              else if !oldSRP.verifyPassword proof.serverPasswordProof then
                (cl, .error .passwordVerification, closeW w)
              else
                ({ cl with cfg := { cfg with password := newPassword } },
                 .ok (), closeW w)

/-- Selector for `bncs.AuthInfoResp` (the expected response of
`sendAuthInfo`; pings are handled separately there). -/
def selAuthInfo : RPkt → Option AuthInfoResp
  | .authInfoResp p => some p
  | _ => none

/-- The echo replies produced by the `sendAuthInfo` loop for the pings in
a received segment. -/
def pingEchoes (l : List (Except BErr RPkt)) : List SPkt :=
  l.filterMap fun x => match x with
    | .ok (.ping n) => some (.ping n)
    | _ => none

/-- The packets of a received segment that the `sendAuthInfo` loop fires
to the event bus (everything except pings). -/
def nonPingPkts (l : List (Except BErr RPkt)) : List RPkt :=
  l.filterMap fun x => match x with
    | .ok (.ping _) => none
    | .ok p => some p
    | .error _ => none

/-- The packets of a received segment (dropping read errors). -/
def okPkts (l : List (Except BErr RPkt)) : List RPkt :=
  l.filterMap fun x => match x with
    | .ok p => some p
    | .error _ => none

/-- A received segment that a loop with selector `sel` passes over: only
successfully read packets that `sel` does not select. -/
def plainFor (sel : RPkt → Option A) (l : List (Except BErr RPkt)) : Prop :=
  ∀ x ∈ l, ∃ p, x = .ok p ∧ sel p = none

/-- Sample configuration used to evaluate the theorems on concrete
inputs. -/
def cfg0 : Config :=
  { serverAddr := "srv:6112", keepAliveInterval := 30, platform := ⟨28, 0⟩,
    binPath := "bin", exeInfo := "", exeVersion := 1, exeHash := 2,
    verifySignature := false, sha1Auth := true, username := "user",
    password := "pw", cdKeyOwner := "own", cdKeys := [], gamePort := 6112 }

/-- A fresh world for a given receive script: every send succeeds, nothing
sent or fired yet, connection open. -/
def mkWorld (recvs : List (Except BErr RPkt)) : World :=
  { recvs := recvs, sendResults := [], sent := [], fired := [],
    timeouts := [], closed := false }

/-- Sample auth-info response. -/
def aiResp0 : AuthInfoResp := ⟨1, 2, 3, 4⟩

/-- Sample SRP behaviour whose verification always succeeds. -/
def srpTrue : SRPS :=
  { clientKey := 1, passwordProof := fun _ _ => 2,
    verifyPassword := fun _ => true, accountCreate := .ok (3, 4) }

/-- Sample SRP behaviour whose verification always fails. -/
def srpFalse : SRPS :=
  { clientKey := 1, passwordProof := fun _ _ => 2,
    verifyPassword := fun _ => false, accountCreate := .ok (3, 4) }

/-- Sample client. -/
def cl0 : Client := { cfg := cfg0, uniqueName := "" }

/-- Sample environment for which every collaborator succeeds and the TCP
dial succeeds. -/
def envOk : Env :=
  { newNLS := fun _ _ => .ok srpTrue, newSHA1 := fun _ => srpTrue,
    getExeInfo := fun _ => .ok (1, "i"), fileExists := fun _ => true,
    checkRevision := fun _ _ _ => .ok 5,
    extractMPQNumber := fun n => n,
    createBNCSKeyInfo := fun _ _ _ => .ok 6,
    verifyServerSignature := fun _ => true, dialResult := none, now := 77 }

/-- Sample environment whose verification oracle rejects every password
counter-proof. -/
def envBadProof : Env :=
  { envOk with newSHA1 := fun _ => srpFalse, newNLS := fun _ _ => .ok srpFalse }

/-- Sample environment for which the TCP dial fails. -/
def envNoDial : Env := { envOk with dialResult := some (.ioErr 7) }

/-- Sample configuration whose server address has no port. -/
def cfgNoColon : Config := { cfg0 with serverAddr := "srv" }

/-- Agreement of two configurations on every field other than
`serverAddr` and `password`. -/
def agreesExceptAddrPw (a b : Config) : Prop :=
  b.keepAliveInterval = a.keepAliveInterval ∧ b.platform = a.platform ∧
  b.binPath = a.binPath ∧ b.exeInfo = a.exeInfo ∧
  b.exeVersion = a.exeVersion ∧ b.exeHash = a.exeHash ∧
  b.verifySignature = a.verifySignature ∧ b.sha1Auth = a.sha1Auth ∧
  b.username = a.username ∧ b.cdKeyOwner = a.cdKeyOwner ∧
  b.cdKeys = a.cdKeys ∧ b.gamePort = a.gamePort

/-- The server address is unchanged or gained the default port suffix. -/
def addrNormalized (a b : Config) : Prop :=
  b.serverAddr = a.serverAddr ∨ b.serverAddr = a.serverAddr ++ ":6112"

/-! ## Outbound chat filtering (`FilterChat`)

Go strings are byte strings; `FilterChat` maps over the decoded runes
(dropping non-printable ones) and then truncates the byte string at 254
bytes, which may split the final multi-byte rune. The emoji replacer and
`unicode.IsPrint` are external collaborators and stay parameters. -/

/-- A Unicode scalar value (what a decoded Go rune ranges over). -/
def ValidScalar (c : Nat) : Prop :=
  c < 0x110000 ∧ ¬ (0xD800 ≤ c ∧ c < 0xE000)

instance (c : Nat) : Decidable (ValidScalar c) := by
  unfold ValidScalar
  exact inferInstance

/-- UTF-8 encoding of one scalar value (as `utf8.EncodeRune`). -/
def utf8EncodeChar (c : Nat) : List Nat :=
  if c < 0x80 then [c]
  else if c < 0x800 then [0xC0 + c / 0x40, 0x80 + c % 0x40]
  else if c < 0x10000 then
    [0xE0 + c / 0x1000, 0x80 + c / 0x40 % 0x40, 0x80 + c % 0x40]
  else
    [0xF0 + c / 0x40000, 0x80 + c / 0x1000 % 0x40, 0x80 + c / 0x40 % 0x40,
     0x80 + c % 0x40]

/-- UTF-8 encoding of a scalar sequence into a byte string. -/
def utf8Encode (l : List Nat) : List Nat := (l.map utf8EncodeChar).flatten

/-- One step of Go's UTF-8 decoding: given the first byte and the
remaining bytes, return the decoded scalar and how many extra bytes the
sequence consumed, or `none` for an ill-formed sequence. -/
def decodeStep (b : Nat) (bs : List Nat) : Option (Nat × Nat) :=
  if b < 0x80 then some (b, 0)
  else if 0xC0 ≤ b ∧ b < 0xE0 then
    match bs with
    | b1 :: _ =>
      if 0x80 ≤ b1 ∧ b1 < 0xC0 ∧
          0x80 ≤ (b - 0xC0) * 0x40 + (b1 - 0x80) then
        some ((b - 0xC0) * 0x40 + (b1 - 0x80), 1)
      else none
    | [] => none
  else if 0xE0 ≤ b ∧ b < 0xF0 then
    match bs with
    | b1 :: b2 :: _ =>
      if 0x80 ≤ b1 ∧ b1 < 0xC0 ∧ 0x80 ≤ b2 ∧ b2 < 0xC0 ∧
          0x800 ≤ (b - 0xE0) * 0x1000 + (b1 - 0x80) * 0x40 + (b2 - 0x80) ∧
          ¬ (0xD800 ≤ (b - 0xE0) * 0x1000 + (b1 - 0x80) * 0x40 + (b2 - 0x80) ∧
             (b - 0xE0) * 0x1000 + (b1 - 0x80) * 0x40 + (b2 - 0x80) < 0xE000) then
        some ((b - 0xE0) * 0x1000 + (b1 - 0x80) * 0x40 + (b2 - 0x80), 2)
      else none
    | _ => none
  else if 0xF0 ≤ b ∧ b < 0xF5 then
    match bs with
    | b1 :: b2 :: b3 :: _ =>
      if 0x80 ≤ b1 ∧ b1 < 0xC0 ∧ 0x80 ≤ b2 ∧ b2 < 0xC0 ∧
          0x80 ≤ b3 ∧ b3 < 0xC0 ∧
          0x10000 ≤ (b - 0xF0) * 0x40000 + (b1 - 0x80) * 0x1000 +
            (b2 - 0x80) * 0x40 + (b3 - 0x80) ∧
          (b - 0xF0) * 0x40000 + (b1 - 0x80) * 0x1000 +
            (b2 - 0x80) * 0x40 + (b3 - 0x80) < 0x110000 then
        some ((b - 0xF0) * 0x40000 + (b1 - 0x80) * 0x1000 +
          (b2 - 0x80) * 0x40 + (b3 - 0x80), 3)
      else none
    | _ => none
  else none

/-- Go's replacement-character decoding of a byte string (`for range` /
`utf8.DecodeRune` semantics): each well-formed sequence yields its scalar,
every other byte yields U+FFFD and one byte is consumed. -/
def decodeReplace : List Nat → List Nat
  | [] => []
  | b :: bs =>
    match decodeStep b bs with
    | some (v, extra) => v :: decodeReplace (bs.drop extra)
    | none => 0xFFFD :: decodeReplace bs
termination_by l => l.length
decreasing_by
  all_goals simp
  omega

/-- Embedding of `FilterChat`: emoji replacement (external replacer), the
`strings.Map` dropping every rune rejected by `unicode.IsPrint`, then the
byte-level truncation `s = s[:254]` when the encoded string exceeds 254
bytes. -/
def filterChat (emojiReplace : List Nat → List Nat) (isPrint : Nat → Bool)
    (s : List Nat) : List Nat :=
  let t := utf8Encode ((emojiReplace s).filter isPrint)
  if 254 < t.length then t.take 254 else t

/-- A sample printability predicate: printable ASCII plus the replacement
character. -/
def isPrint0 (c : Nat) : Bool := decide ((0x20 ≤ c ∧ c < 0x7F) ∨ c = 0xFFFD)

/-- Embedding of `Client.Say`: filters the message, returns success without
touching the connection when the filtered message is empty, and otherwise
sends a `bncs.ChatCommand` through the rate-limited send (modelled by
`sendW`, since rate limiting only delays the send). -/
def Say (emojiReplace : List Nat → List Nat) (isPrint : Nat → Bool)
    (s : List Nat) (w : World) : Option BErr × World :=
  if (filterChat emojiReplace isPrint s).length = 0 then (none, w)
  else sendW (.chatCommand (filterChat emojiReplace isPrint s)) w

/-! ### The capi packet family

The capi codec itself is not part of the shown corpus; only its round-trip
test is.  The definitions below are therefore modelled from the
specification of the Binary Buffer Codec and the Packet Catalog, over the
packet shapes enumerated by the repository's capi test. -/

namespace capi

/-- Modelled from the spec: a growable byte sequence plus a read cursor;
write appends at the end, read advances the cursor. -/
structure Buffer where
  bytes : List Nat
  pos : Nat
  deriving Repr, DecidableEq

/-- Modelled from the spec: a fresh empty buffer. -/
def emptyBuffer : Buffer := { bytes := [], pos := 0 }

/-- Modelled from the spec: `Size()` returns the unread byte count. -/
def Buffer.Size (b : Buffer) : Nat := b.bytes.length - b.pos

/-- Little-endian bytes of a 16-bit value. -/
def u16LE (v : Nat) : List Nat := [v % 256, v / 256 % 256]

/-- Little-endian bytes of a 32-bit value. -/
def u32LE (v : Nat) : List Nat :=
  [v % 256, v / 256 % 256, v / 65536 % 256, v / 16777216 % 256]

/-- A length-prefixed string: 16-bit length followed by the bytes. -/
def lpStr (s : List Nat) : List Nat :=
  u16LE s.length ++ s.map (fun b => b % 256)

/-- Modelled from the spec: `WriteU8` appends one byte at the end. -/
def writeU8 (b : Buffer) (v : Nat) : Buffer :=
  { b with bytes := b.bytes ++ [v % 256] }

/-- Modelled from the spec: `WriteU32` appends four little-endian bytes. -/
def writeU32 (b : Buffer) (v : Nat) : Buffer :=
  { b with bytes := b.bytes ++ u32LE v }

/-- Modelled from the spec: appending a pre-encoded byte sequence. -/
def writeBytes (b : Buffer) (l : List Nat) : Buffer :=
  { b with bytes := b.bytes ++ l }

/-- Modelled from the spec: backfilling a 32-bit value at an absolute
position of the committed bytes. -/
def setU32At (b : Buffer) (i v : Nat) : Buffer :=
  { b with bytes := b.bytes.take i ++ u32LE v ++ b.bytes.drop (i + 4) }

/-- Modelled from the spec: `ReadU8` advances the cursor by one, failing
with an insufficient-data condition (cursor unchanged) at the end. -/
def readU8 (b : Buffer) : Option (Nat × Buffer) :=
  match b.bytes[b.pos]? with
  | some v => some (v, { b with pos := b.pos + 1 })
  | none => none

/-- Modelled from the spec: `ReadU16`, an all-or-nothing little-endian
two-byte read. -/
def readU16 (b : Buffer) : Option (Nat × Buffer) :=
  match b.bytes[b.pos]?, b.bytes[b.pos + 1]? with
  | some v0, some v1 => some (v0 + 256 * v1, { b with pos := b.pos + 2 })
  | _, _ => none

/-- Modelled from the spec: `ReadU32`, an all-or-nothing little-endian
four-byte read. -/
def readU32 (b : Buffer) : Option (Nat × Buffer) :=
  match b.bytes[b.pos]?, b.bytes[b.pos + 1]?,
      b.bytes[b.pos + 2]?, b.bytes[b.pos + 3]? with
  | some v0, some v1, some v2, some v3 =>
      some (v0 + 256 * v1 + 65536 * v2 + 16777216 * v3,
        { b with pos := b.pos + 4 })
  | _, _, _, _ => none

/-- Modelled from the spec: an all-or-nothing read of `n` raw bytes. -/
def readBytesN (n : Nat) (b : Buffer) : Option (List Nat × Buffer) :=
  if b.pos + n ≤ b.bytes.length then
    some ((b.bytes.drop b.pos).take n, { b with pos := b.pos + n })
  else none

/-- Modelled from the spec: reading a length-prefixed string. -/
def readLPString (b : Buffer) : Option (List Nat × Buffer) :=
  match readU16 b with
  | some (n, b1) =>
      match readBytesN n b1 with
      | some (s, b2) => some (s, b2)
      | none => none
  | none => none

/-- Modelled from the spec: the capi payload shapes exercised by the
repository's round-trip test. -/
inductive Payload where
  | authenticate (apiKey : List Nat)
  | connect
  | disconnect
  | sendMessage (message : List Nat)
  | sendEmote (message : List Nat)
  | sendWhisper (message userID : List Nat)
  | kickUser (userID : List Nat)
  | banUser (userID : List Nat)
  | unbanUser (username : List Nat)
  | setModerator (userID : List Nat)
  | connectEvent (channel : List Nat)
  | disconnectEvent
  | messageEvent (userID message : List Nat) (msgType : Nat)
  | userUpdateEvent (userID username : List Nat) (flags : Nat)
      (programID rate rank wins : List Nat)
  | userLeaveEvent
  | response
  deriving Repr, DecidableEq

/-- Modelled from the spec: a packet of the capi family, request id and
status code plus the typed payload. -/
structure Packet where
  requestID : Nat
  status : Nat
  payload : Payload
  deriving Repr, DecidableEq

/-- Modelled from the spec: the registry key (command id) of each payload
shape. -/
def payloadCmd : Payload → Nat
  | .authenticate _ => 1
  | .connect => 2
  | .disconnect => 3
  | .sendMessage _ => 4
  | .sendEmote _ => 5
  | .sendWhisper _ _ => 6
  | .kickUser _ => 7
  | .banUser _ => 8
  | .unbanUser _ => 9
  | .setModerator _ => 10
  | .connectEvent _ => 11
  | .disconnectEvent => 12
  | .messageEvent _ _ _ => 13
  | .userUpdateEvent _ _ _ _ _ _ _ => 14
  | .userLeaveEvent => 15
  | .response => 16

/-- Modelled from the spec: the encoded payload fields. -/
def payloadBytes : Payload → List Nat
  | .authenticate key => lpStr key
  | .connect => []
  | .disconnect => []
  | .sendMessage m => lpStr m
  | .sendEmote m => lpStr m
  | .sendWhisper m u => lpStr m ++ lpStr u
  | .kickUser u => lpStr u
  | .banUser u => lpStr u
  | .unbanUser u => lpStr u
  | .setModerator u => lpStr u
  | .connectEvent ch => lpStr ch
  | .disconnectEvent => []
  | .messageEvent u m ty => lpStr u ++ lpStr m ++ u32LE ty
  | .userUpdateEvent u un fl pid rate rank wins =>
      lpStr u ++ lpStr un ++ u32LE fl ++ lpStr pid ++ lpStr rate ++
        lpStr rank ++ lpStr wins
  | .userLeaveEvent => []
  | .response => []

/-- Modelled from the spec: the 1-byte protocol signature of the family. -/
def capiSig : Nat := 0x43

/-- Modelled from the spec: the packet body behind the frame header,
request id then status then the payload fields. -/
def bodyBytes (pkt : Packet) : List Nat :=
  u32LE pkt.requestID ++ [pkt.status % 256] ++ payloadBytes pkt.payload

/-- Modelled from the spec: `SerializePacket` writes the signature, the
command id, a placeholder length, then the body, and backfills the true
length. -/
def SerializePacket (b : Buffer) (pkt : Packet) : Buffer :=
  setU32At
    (writeBytes
      (writeU32 (writeU8 (writeU8 b capiSig) (payloadCmd pkt.payload)) 0)
      (bodyBytes pkt))
    (b.bytes.length + 2) (bodyBytes pkt).length

/-- Modelled from the spec: the per-command decode functions of the capi
registry. -/
def decodePayload (cmd : Nat) (b : Buffer) : Option (Payload × Buffer) :=
  if cmd = 1 then
    match readLPString b with
    | some (key, b1) => some (.authenticate key, b1)
    | none => none
  else if cmd = 2 then some (.connect, b)
  else if cmd = 3 then some (.disconnect, b)
  else if cmd = 4 then
    match readLPString b with
    | some (m, b1) => some (.sendMessage m, b1)
    | none => none
  else if cmd = 5 then
    match readLPString b with
    | some (m, b1) => some (.sendEmote m, b1)
    | none => none
  else if cmd = 6 then
    match readLPString b with
    | some (m, b1) =>
        match readLPString b1 with
        | some (u, b2) => some (.sendWhisper m u, b2)
        | none => none
    | none => none
  else if cmd = 7 then
    match readLPString b with
    | some (u, b1) => some (.kickUser u, b1)
    | none => none
  else if cmd = 8 then
    match readLPString b with
    | some (u, b1) => some (.banUser u, b1)
    | none => none
  else if cmd = 9 then
    match readLPString b with
    | some (u, b1) => some (.unbanUser u, b1)
    | none => none
  else if cmd = 10 then
    match readLPString b with
    | some (u, b1) => some (.setModerator u, b1)
    | none => none
  else if cmd = 11 then
    match readLPString b with
    | some (ch, b1) => some (.connectEvent ch, b1)
    | none => none
  else if cmd = 12 then some (.disconnectEvent, b)
  else if cmd = 13 then
    match readLPString b with
    | some (u, b1) =>
        match readLPString b1 with
        | some (m, b2) =>
            match readU32 b2 with
            | some (ty, b3) => some (.messageEvent u m ty, b3)
            | none => none
        | none => none
    | none => none
  else if cmd = 14 then
    match readLPString b with
    | some (u, b1) =>
        match readLPString b1 with
        | some (un, b2) =>
            match readU32 b2 with
            | some (fl, b3) =>
                match readLPString b3 with
                | some (pid, b4) =>
                    match readLPString b4 with
                    | some (rate, b5) =>
                        match readLPString b5 with
                        | some (rank, b6) =>
                            match readLPString b6 with
                            | some (wins, b7) =>
                                some (.userUpdateEvent u un fl pid rate
                                  rank wins, b7)
                            | none => none
                        | none => none
                    | none => none
                | none => none
            | none => none
        | none => none
    | none => none
  else if cmd = 15 then some (.userLeaveEvent, b)
  else if cmd = 16 then some (.response, b)
  else none

/-- Modelled from the spec: `DeserializePacket` validates the signature
and that the declared length does not exceed the available bytes, then
dispatches on the command id. -/
def DeserializePacket (b : Buffer) : Option (Packet × Buffer) :=
  match readU8 b with
  | none => none
  | some (sig, b1) =>
    if sig = capiSig then
      match readU8 b1 with
      | none => none
      | some (cmd, b2) =>
        match readU32 b2 with
        | none => none
        | some (len, b3) =>
          if b3.Size < len then none
          else
            match readU32 b3 with
            | none => none
            | some (reqID, b4) =>
              match readU8 b4 with
              | none => none
              | some (st, b5) =>
                match decodePayload cmd b5 with
                | none => none
                | some (p, b6) =>
                    some (Packet.mk reqID st p, b6)
    else none

/-- A byte string fit for the wire model: bytes below 256 and a length
that fits the 16-bit prefix. -/
def validStr (s : List Nat) : Bool :=
  decide (s.length < 65536) && s.all (fun b => decide (b < 256))

/-- Field validity of a payload value. -/
def payloadValid : Payload → Bool
  | .authenticate key => validStr key
  | .connect => true
  | .disconnect => true
  | .sendMessage m => validStr m
  | .sendEmote m => validStr m
  | .sendWhisper m u => validStr m && validStr u
  | .kickUser u => validStr u
  | .banUser u => validStr u
  | .unbanUser u => validStr u
  | .setModerator u => validStr u
  | .connectEvent ch => validStr ch
  | .disconnectEvent => true
  | .messageEvent u m ty => validStr u && validStr m &&
      decide (ty < 4294967296)
  | .userUpdateEvent u un fl pid rate rank wins =>
      validStr u && validStr un && decide (fl < 4294967296) &&
        validStr pid && validStr rate && validStr rank && validStr wins
  | .userLeaveEvent => true
  | .response => true

/-- Field validity of a packet value. -/
def pktValid (pkt : Packet) : Bool :=
  decide (pkt.requestID < 4294967296) && decide (pkt.status < 256) &&
    payloadValid pkt.payload

end capi

/-! ## Theorems -/

theorem lookupUser_map_set (us : List (String × User)) (k : String) (u : User)
    (h : us.any (fun e => e.1 = k) = true) :
    lookupUser (us.map (fun e => if e.1 = k then (k, u) else e)) k = some u := by
  induction us with
  | nil => simp at h
  | cons e t ih =>
    by_cases he : e.1 = k
    · simp only [List.map_cons, if_pos he]
      unfold lookupUser
      rw [List.find?_cons_of_pos _ (by simp)]
      rfl
    · simp only [List.map_cons, if_neg he]
      have h2 : t.any (fun e => e.1 = k) = true := by
        simp only [List.any_cons, Bool.or_eq_true, decide_eq_true_eq] at h
        rcases h with h | h
        · exact absurd h he
        · exact h
      unfold lookupUser
      rw [List.find?_cons_of_neg _ (by simp [he])]
      exact ih h2

theorem lookupUser_append_new (us : List (String × User)) (k : String) (u : User)
    (h : us.any (fun e => e.1 = k) = false) :
    lookupUser (us ++ [(k, u)]) k = some u := by
  induction us with
  | nil =>
    unfold lookupUser
    rw [List.nil_append, List.find?_cons_of_pos _ (by simp)]
    rfl
  | cons e t ih =>
    have he : ¬ e.1 = k := by
      intro hk
      simp [List.any_cons, hk] at h
    have h2 : t.any (fun e => e.1 = k) = false := by
      simp only [List.any_cons, Bool.or_eq_false_iff] at h
      exact h.2
    rw [List.cons_append]
    unfold lookupUser
    rw [List.find?_cons_of_neg _ (by simp [he])]
    exact ih h2

theorem lookupUser_setUser_self (us : List (String × User)) (k : String)
    (u : User) : lookupUser (setUser us k u) k = some u := by
  unfold setUser
  by_cases h : us.any (fun e => e.1 = k) = true
  · rw [if_pos h]
    exact lookupUser_map_set us k u h
  · rw [if_neg h]
    exact lookupUser_append_new us k u (Bool.eq_false_iff.mpr h)

/-- C5: a "channel info" chat event resets the membership map to empty and
sets the channel name to the event text regardless of prior state, so
processing the same event twice leaves no residual users from before either
reset, and the state after is independent of the membership before. -/
theorem channelInfo_resets_membership (st st' : ChatState) (pkt : ChatEventPkt)
    (now now' : Nat) (h : pkt.type = chatChannelInfo) :
    (onChatEvent st pkt now).1 = { channel := pkt.text, users := [] } ∧
    (onChatEvent (onChatEvent st pkt now).1 pkt now').1 =
      { channel := pkt.text, users := [] } ∧
    (onChatEvent st' pkt now).1 = (onChatEvent st pkt now).1 := by
  unfold onChatEvent
  simp [h]

/-- Witness for C5 at a concrete state and channel-info event. -/
theorem channelInfo_resets_membership_witness :
    (onChatEvent ⟨"old", [("x", ⟨"x", "", 0, 0, 1, 2⟩)]⟩
        ⟨chatChannelInfo, "", "Lobby", 0, 0, 3⟩ 9).1 =
      { channel := "Lobby", users := [] } :=
  (channelInfo_resets_membership ⟨"old", [("x", ⟨"x", "", 0, 0, 1, 2⟩)]⟩
    ⟨"", []⟩ ⟨chatChannelInfo, "", "Lobby", 0, 0, 3⟩ 9 4 rfl).1

/-- C4 fails on the code: on a repeat "user shown" event the stored entry
keeps the previous `LastSeen` too, not only `Joined`. Here the previous
entry has lastSeen 2 and the event arrives at time 5, yet the stored entry
still carries lastSeen 2 rather than the event time 5 the claim requires. -/
theorem userShown_counterexample :
    lookupUser ((onChatEvent ⟨"c", [("bob", ⟨"bob", "s", 0, 0, 1, 2⟩)]⟩
        ⟨chatShowUser, "bob", "t", 3, 4, 0⟩ 5).1.users) "bob" =
      some ⟨"bob", "t", 3, 4, 1, 2⟩ ∧
    lookupUser ((onChatEvent ⟨"c", [("bob", ⟨"bob", "s", 0, 0, 1, 2⟩)]⟩
        ⟨chatShowUser, "bob", "t", 3, 4, 0⟩ 5).1.users) "bob" ≠
      some ⟨"bob", "t", 3, 4, 1, 5⟩ := by
  constructor <;> decide

/-- C4 (amended): on a "user shown"/"user joined" chat event, an unseen
lower-cased name stores a user built from the event with both timestamps
set to the current time and fires `UserJoined`; an already-present name
stores the entry rebuilt from the event with both the previous `Joined`
and the previous `LastSeen` preserved and fires `UserUpdate`. -/
theorem userShown_upsert (st : ChatState) (pkt : ChatEventPkt) (now : Nat)
    (h : pkt.type = chatShowUser ∨ pkt.type = chatJoin) :
    (lookupUser st.users (toLowerStr pkt.username) = none →
      onChatEvent st pkt now =
        ({ st with users := setUser st.users (toLowerStr pkt.username) (eventUser pkt now now) },
         [.userJoined (eventUser pkt now now) (pkt.type = chatShowUser)]) ∧
      lookupUser (onChatEvent st pkt now).1.users (toLowerStr pkt.username) =
        some (eventUser pkt now now)) ∧
    (∀ p, lookupUser st.users (toLowerStr pkt.username) = some p →
      onChatEvent st pkt now =
        ({ st with users := setUser st.users (toLowerStr pkt.username) (eventUser pkt p.joined p.lastSeen) },
         [.userUpdate (eventUser pkt p.joined p.lastSeen)]) ∧
      lookupUser (onChatEvent st pkt now).1.users (toLowerStr pkt.username) =
        some (eventUser pkt p.joined p.lastSeen)) := by
  have hne : ¬ pkt.type = chatChannelInfo := by
    rcases h with h1 | h1 <;> rw [h1] <;> decide
  constructor
  · intro hl
    have hres : onChatEvent st pkt now =
        ({ st with users := setUser st.users (toLowerStr pkt.username) (eventUser pkt now now) },
         [.userJoined (eventUser pkt now now) (pkt.type = chatShowUser)]) := by
      unfold onChatEvent
      rw [if_neg hne, if_pos h]
      simp only [hl, eventUser]
    refine ⟨hres, ?_⟩
    rw [hres]
    exact lookupUser_setUser_self st.users (toLowerStr pkt.username) _
  · intro p hl
    have hres : onChatEvent st pkt now =
        ({ st with users := setUser st.users (toLowerStr pkt.username) (eventUser pkt p.joined p.lastSeen) },
         [.userUpdate (eventUser pkt p.joined p.lastSeen)]) := by
      unfold onChatEvent
      rw [if_neg hne, if_pos h]
      simp only [hl, eventUser]
    refine ⟨hres, ?_⟩
    rw [hres]
    exact lookupUser_setUser_self st.users (toLowerStr pkt.username) _

/-- Witness for C4 (amended) at a concrete join event on an empty channel. -/
theorem userShown_upsert_witness :
    onChatEvent ⟨"c", []⟩ ⟨chatJoin, "Ann", "st", 7, 8, 0⟩ 11 =
      ({ channel := "c", users := [("ann", ⟨"Ann", "st", 7, 8, 11, 11⟩)] },
       [.userJoined ⟨"Ann", "st", 7, 8, 11, 11⟩ false]) := by
  have hw := (userShown_upsert ⟨"c", []⟩ ⟨chatJoin, "Ann", "st", 7, 8, 0⟩ 11
    (Or.inr rfl)).1 (by decide)
  rw [hw.1]
  decide

theorem authInfoGo_ok (junk : List (Except BErr RPkt)) (resp : AuthInfoResp)
    (rest : List (Except BErr RPkt)) :
    ∀ (w : World) (tmo : Nat), plainFor selAuthInfo junk →
      w.sendResults = [] →
      authInfoGo tmo (junk ++ .ok (.authInfoResp resp) :: rest) w =
        (.ok resp,
         { w with recvs := rest,
                  sent := w.sent ++ pingEchoes junk,
                  fired := w.fired ++ nonPingPkts junk,
                  timeouts := w.timeouts ++
                    tmo :: List.replicate junk.length noTimeout }) := by
  induction junk with
  | nil =>
    intro w tmo hj hs
    simp [authInfoGo, pingEchoes, nonPingPkts]
  | cons x t ih =>
    intro w tmo hj hs
    obtain ⟨p, hx, hsel⟩ := hj x (List.mem_cons_self _ _)
    subst hx
    have hjt : plainFor selAuthInfo t := fun y hy => hj y (List.mem_cons_of_mem _ hy)
    cases p
    case authInfoResp q => simp [selAuthInfo] at hsel
    case ping n =>
      simp only [List.cons_append, authInfoGo, hs, List.append_eq]
      rw [ih _ noTimeout hjt (by simp [hs])]
      simp [pingEchoes, nonPingPkts, List.replicate_succ, List.append_assoc]
    all_goals
      simp only [List.cons_append, authInfoGo, hs, List.append_eq]
      rw [ih _ noTimeout hjt (by simp [hs])]
      simp [pingEchoes, nonPingPkts, List.replicate_succ, List.append_assoc]

theorem authInfoLoop_ok (junk : List (Except BErr RPkt)) (resp : AuthInfoResp)
    (rest : List (Except BErr RPkt)) :
    ∀ (w : World) (tmo : Nat), plainFor selAuthInfo junk →
      w.recvs = junk ++ .ok (.authInfoResp resp) :: rest →
      w.sendResults = [] →
      authInfoLoop tmo w =
        (.ok resp,
         { w with recvs := rest,
                  sent := w.sent ++ pingEchoes junk,
                  fired := w.fired ++ nonPingPkts junk,
                  timeouts := w.timeouts ++
                    tmo :: List.replicate junk.length noTimeout }) := by
  intro w tmo hj hw hs
  unfold authInfoLoop
  rw [hw]
  exact authInfoGo_ok junk resp rest w tmo hj hs

theorem authInfoGo_err (junk : List (Except BErr RPkt)) (e : BErr)
    (rest : List (Except BErr RPkt)) :
    ∀ (w : World) (tmo : Nat), plainFor selAuthInfo junk →
      w.sendResults = [] →
      (authInfoGo tmo (junk ++ .error e :: rest) w).1 = .error e := by
  induction junk with
  | nil =>
    intro w tmo hj hs
    simp [authInfoGo]
  | cons x t ih =>
    intro w tmo hj hs
    obtain ⟨p, hx, hsel⟩ := hj x (List.mem_cons_self _ _)
    subst hx
    have hjt : plainFor selAuthInfo t := fun y hy => hj y (List.mem_cons_of_mem _ hy)
    cases p
    case authInfoResp q => simp [selAuthInfo] at hsel
    case ping n =>
      simp only [List.cons_append, authInfoGo, hs, List.append_eq]
      rw [ih _ noTimeout hjt (by simp [hs])]
    all_goals
      simp only [List.cons_append, authInfoGo, hs, List.append_eq]
      rw [ih _ noTimeout hjt (by simp [hs])]

theorem authInfoLoop_err (junk : List (Except BErr RPkt)) (e : BErr)
    (rest : List (Except BErr RPkt)) :
    ∀ (w : World) (tmo : Nat), plainFor selAuthInfo junk →
      w.recvs = junk ++ .error e :: rest →
      w.sendResults = [] →
      (authInfoLoop tmo w).1 = .error e := by
  intro w tmo hj hw hs
  unfold authInfoLoop
  rw [hw]
  exact authInfoGo_err junk e rest w tmo hj hs

theorem awaitGo_ok {A : Type} (sel : RPkt → Option A)
    (junk : List (Except BErr RPkt)) (pkt : RPkt) (a : A) (hp : sel pkt = some a)
    (rest : List (Except BErr RPkt)) :
    ∀ (w : World) (tmo : Nat), plainFor sel junk →
      awaitGo sel tmo (junk ++ .ok pkt :: rest) w =
        (.ok a,
         { w with recvs := rest,
                  fired := w.fired ++ okPkts junk,
                  timeouts := w.timeouts ++
                    tmo :: List.replicate junk.length noTimeout }) := by
  induction junk with
  | nil =>
    intro w tmo hj
    simp [awaitGo, hp, okPkts]
  | cons x t ih =>
    intro w tmo hj
    obtain ⟨p, hx, hsel⟩ := hj x (List.mem_cons_self _ _)
    subst hx
    have hjt : plainFor sel t := fun y hy => hj y (List.mem_cons_of_mem _ hy)
    simp only [List.cons_append, awaitGo, hsel, List.append_eq]
    rw [ih _ noTimeout hjt]
    simp [okPkts, List.replicate_succ, List.append_assoc]

theorem awaitLoop_ok {A : Type} (sel : RPkt → Option A)
    (junk : List (Except BErr RPkt)) (pkt : RPkt) (a : A) (hp : sel pkt = some a)
    (rest : List (Except BErr RPkt)) :
    ∀ (w : World) (tmo : Nat), plainFor sel junk →
      w.recvs = junk ++ .ok pkt :: rest →
      awaitLoop sel tmo w =
        (.ok a,
         { w with recvs := rest,
                  fired := w.fired ++ okPkts junk,
                  timeouts := w.timeouts ++
                    tmo :: List.replicate junk.length noTimeout }) := by
  intro w tmo hj hw
  unfold awaitLoop
  rw [hw]
  exact awaitGo_ok sel junk pkt a hp rest w tmo hj

theorem awaitGo_err {A : Type} (sel : RPkt → Option A)
    (junk : List (Except BErr RPkt)) (e : BErr)
    (rest : List (Except BErr RPkt)) :
    ∀ (w : World) (tmo : Nat), plainFor sel junk →
      (awaitGo sel tmo (junk ++ .error e :: rest) w).1 = .error e := by
  induction junk with
  | nil =>
    intro w tmo hj
    simp [awaitGo]
  | cons x t ih =>
    intro w tmo hj
    obtain ⟨p, hx, hsel⟩ := hj x (List.mem_cons_self _ _)
    subst hx
    have hjt : plainFor sel t := fun y hy => hj y (List.mem_cons_of_mem _ hy)
    simp only [List.cons_append, awaitGo, hsel, List.append_eq]
    exact ih _ noTimeout hjt

theorem awaitLoop_err {A : Type} (sel : RPkt → Option A)
    (junk : List (Except BErr RPkt)) (e : BErr)
    (rest : List (Except BErr RPkt)) :
    ∀ (w : World) (tmo : Nat), plainFor sel junk →
      w.recvs = junk ++ .error e :: rest →
      (awaitLoop sel tmo w).1 = .error e := by
  intro w tmo hj hw
  unfold awaitLoop
  rw [hw]
  exact awaitGo_err sel junk e rest w tmo hj

/-- C3: `sendAuthInfo` sends the request and then loops reading packets:
the first wait is bounded by a 10 second timeout, every received ping is
echoed back, every other packet that is not the expected `AuthInfoResp` is
dispatched to the event bus, subsequent waits use the no-timeout sentinel,
and the step returns exactly the first `AuthInfoResp` received, or the
first read error. -/
theorem sendAuthInfo_behaviour (cfg : Config) (w : World)
    (junk : List (Except BErr RPkt)) (hj : plainFor selAuthInfo junk)
    (hs : w.sendResults = []) :
    (∀ resp rest, w.recvs = junk ++ .ok (.authInfoResp resp) :: rest →
      sendAuthInfo cfg w =
        (.ok resp,
         { w with recvs := rest,
                  sent := (w.sent ++
                    [SPkt.authInfoReq cfg.platform.version cfg.platform.tag]) ++
                    pingEchoes junk,
                  fired := w.fired ++ nonPingPkts junk,
                  timeouts := w.timeouts ++
                    10 :: List.replicate junk.length noTimeout })) ∧
    (∀ e rest, w.recvs = junk ++ .error e :: rest →
      (sendAuthInfo cfg w).1 = .error e) := by
  constructor
  · intro resp rest hw
    unfold sendAuthInfo
    simp only [sendW, hs]
    rw [authInfoLoop_ok junk resp rest _ 10 hj (by simp [hw]) (by simp [hs])]
  · intro e rest hw
    unfold sendAuthInfo
    simp only [sendW, hs]
    rw [authInfoLoop_err junk e rest _ 10 hj (by simp [hw]) (by simp [hs])]

/-- Witness for C3: a ping followed by the auth-info response; the ping is
echoed, the first wait is bounded, the second is not. -/
theorem sendAuthInfo_behaviour_witness :
    sendAuthInfo cfg0 (mkWorld [.ok (.ping 5), .ok (.authInfoResp aiResp0)]) =
      (.ok aiResp0,
       { recvs := [], sendResults := [],
         sent := [.authInfoReq 28 0, .ping 5], fired := [],
         timeouts := [10, 0], closed := false }) := by
  have h := (sendAuthInfo_behaviour cfg0
    (mkWorld [.ok (.ping 5), .ok (.authInfoResp aiResp0)]) [.ok (.ping 5)]
    (by intro x hx
        simp only [List.mem_singleton] at hx
        subst hx
        exact ⟨.ping 5, rfl, rfl⟩)
    rfl).1 aiResp0 [] rfl
  rw [h]
  decide

theorem normalizeServerAddr_platform (cfg : Config) :
    (normalizeServerAddr cfg).platform = cfg.platform := by
  unfold normalizeServerAddr
  split <;> rfl

theorem normalizeServerAddr_keepAliveInterval (cfg : Config) :
    (normalizeServerAddr cfg).keepAliveInterval = cfg.keepAliveInterval := by
  unfold normalizeServerAddr
  split <;> rfl

theorem normalizeServerAddr_binPath (cfg : Config) :
    (normalizeServerAddr cfg).binPath = cfg.binPath := by
  unfold normalizeServerAddr
  split <;> rfl

theorem normalizeServerAddr_exeInfo (cfg : Config) :
    (normalizeServerAddr cfg).exeInfo = cfg.exeInfo := by
  unfold normalizeServerAddr
  split <;> rfl

theorem normalizeServerAddr_exeVersion (cfg : Config) :
    (normalizeServerAddr cfg).exeVersion = cfg.exeVersion := by
  unfold normalizeServerAddr
  split <;> rfl

theorem normalizeServerAddr_exeHash (cfg : Config) :
    (normalizeServerAddr cfg).exeHash = cfg.exeHash := by
  unfold normalizeServerAddr
  split <;> rfl

theorem normalizeServerAddr_verifySignature (cfg : Config) :
    (normalizeServerAddr cfg).verifySignature = cfg.verifySignature := by
  unfold normalizeServerAddr
  split <;> rfl

theorem normalizeServerAddr_sha1Auth (cfg : Config) :
    (normalizeServerAddr cfg).sha1Auth = cfg.sha1Auth := by
  unfold normalizeServerAddr
  split <;> rfl

theorem normalizeServerAddr_username (cfg : Config) :
    (normalizeServerAddr cfg).username = cfg.username := by
  unfold normalizeServerAddr
  split <;> rfl

theorem normalizeServerAddr_password (cfg : Config) :
    (normalizeServerAddr cfg).password = cfg.password := by
  unfold normalizeServerAddr
  split <;> rfl

theorem normalizeServerAddr_cdKeyOwner (cfg : Config) :
    (normalizeServerAddr cfg).cdKeyOwner = cfg.cdKeyOwner := by
  unfold normalizeServerAddr
  split <;> rfl

theorem normalizeServerAddr_cdKeys (cfg : Config) :
    (normalizeServerAddr cfg).cdKeys = cfg.cdKeys := by
  unfold normalizeServerAddr
  split <;> rfl

theorem normalizeServerAddr_gamePort (cfg : Config) :
    (normalizeServerAddr cfg).gamePort = cfg.gamePort := by
  unfold normalizeServerAddr
  split <;> rfl

theorem normalizeServerAddr_serverAddr (cfg : Config) :
    (normalizeServerAddr cfg).serverAddr = cfg.serverAddr ∨
    (normalizeServerAddr cfg).serverAddr = cfg.serverAddr ++ ":6112" := by
  unfold normalizeServerAddr
  split
  · exact Or.inl rfl
  · exact Or.inr rfl

theorem sendAuthCheck_ok (cfg : Config) (env : Env) (ctok : Nat)
    (ai : AuthInfoResp) (junk : List (Except BErr RPkt)) (r : Nat)
    (rest : List (Except BErr RPkt)) (w : World)
    (hj : plainFor selAuthCheck junk)
    (hw : w.recvs = junk ++ .ok (.authCheckResp ⟨r⟩) :: rest)
    (hs : w.sendResults = [])
    (hv : cfg.exeVersion ≠ 0) (hh : cfg.exeHash ≠ 0) (hk : cfg.cdKeys = []) :
    sendAuthCheck cfg env ctok ai w =
      (.ok ⟨r⟩,
       { w with recvs := rest,
                sent := w.sent ++ [SPkt.authCheckReq ctok cfg.exeInfo
                  cfg.exeVersion cfg.exeHash [] cfg.cdKeyOwner],
                fired := w.fired ++ okPkts junk,
                timeouts := w.timeouts ++
                  10 :: List.replicate junk.length noTimeout }) := by
  unfold sendAuthCheck
  have hd : deriveExeData cfg env ai =
      .ok (cfg.exeInfo, cfg.exeVersion, cfg.exeHash) := by
    unfold deriveExeData
    simp [hv, hh]
  rw [hd, hk]
  simp only [makeCDKeys, sendW, hs]
  rw [awaitLoop_ok selAuthCheck junk (.authCheckResp ⟨r⟩) ⟨r⟩ rfl rest _ 10 hj (by simp [hw])]

theorem DialWithConn_ok (cfg : Config) (env : Env) (w : World)
    (junk1 junk2 : List (Except BErr RPkt)) (ai : AuthInfoResp)
    (rest : List (Except BErr RPkt))
    (hj1 : plainFor selAuthInfo junk1) (hj2 : plainFor selAuthCheck junk2)
    (hw : w.recvs = junk1 ++ .ok (.authInfoResp ai) ::
      (junk2 ++ .ok (.authCheckResp ⟨authSuccess⟩) :: rest))
    (hs : w.sendResults = [])
    (hsig : cfg.verifySignature = false)
    (hv : cfg.exeVersion ≠ 0) (hh : cfg.exeHash ≠ 0) (hk : cfg.cdKeys = []) :
    DialWithConn cfg env w =
      (.ok (),
       { w with recvs := rest,
                sent := (((w.sent ++ [SPkt.greeting]) ++
                  [SPkt.authInfoReq cfg.platform.version cfg.platform.tag]) ++
                  pingEchoes junk1) ++ [SPkt.authCheckReq env.now cfg.exeInfo
                    cfg.exeVersion cfg.exeHash [] cfg.cdKeyOwner],
                fired := (w.fired ++ nonPingPkts junk1) ++ okPkts junk2,
                timeouts := (w.timeouts ++
                    10 :: List.replicate junk1.length noTimeout) ++
                  10 :: List.replicate junk2.length noTimeout }) := by
  unfold DialWithConn
  have h1 := (sendAuthInfo_behaviour cfg
      { w with sent := w.sent ++ [SPkt.greeting] } junk1 hj1 (by simp [hs])).1 ai
      (junk2 ++ .ok (.authCheckResp ⟨authSuccess⟩) :: rest) (by simp [hw])
  rw [h1]
  simp only [hsig, Bool.false_and, Bool.false_eq_true, if_false]
  rw [sendAuthCheck_ok cfg env env.now ai junk2 authSuccess rest _ hj2
    (by simp) (by simp [hs]) hv hh hk]
  simp [List.append_assoc]

theorem DialWithConn_fail (cfg : Config) (env : Env) (w : World)
    (junk1 junk2 : List (Except BErr RPkt)) (ai : AuthInfoResp) (r : Nat)
    (rest : List (Except BErr RPkt))
    (hj1 : plainFor selAuthInfo junk1) (hj2 : plainFor selAuthCheck junk2)
    (hw : w.recvs = junk1 ++ .ok (.authInfoResp ai) ::
      (junk2 ++ .ok (.authCheckResp ⟨r⟩) :: rest))
    (hs : w.sendResults = [])
    (hsig : cfg.verifySignature = false)
    (hv : cfg.exeVersion ≠ 0) (hh : cfg.exeHash ≠ 0) (hk : cfg.cdKeys = [])
    (hr : r ≠ authSuccess) :
    DialWithConn cfg env w =
      (.error (authResultToError r),
       closeW
       { w with recvs := rest,
                sent := (((w.sent ++ [SPkt.greeting]) ++
                  [SPkt.authInfoReq cfg.platform.version cfg.platform.tag]) ++
                  pingEchoes junk1) ++ [SPkt.authCheckReq env.now cfg.exeInfo
                    cfg.exeVersion cfg.exeHash [] cfg.cdKeyOwner],
                fired := (w.fired ++ nonPingPkts junk1) ++ okPkts junk2,
                timeouts := (w.timeouts ++
                    10 :: List.replicate junk1.length noTimeout) ++
                  10 :: List.replicate junk2.length noTimeout }) := by
  unfold DialWithConn
  have h1 := (sendAuthInfo_behaviour cfg
      { w with sent := w.sent ++ [SPkt.greeting] } junk1 hj1 (by simp [hs])).1 ai
      (junk2 ++ .ok (.authCheckResp ⟨r⟩) :: rest) (by simp [hw])
  rw [h1]
  simp only [hsig, Bool.false_and, Bool.false_eq_true, if_false]
  rw [sendAuthCheck_ok cfg env env.now ai junk2 r rest _ hj2
    (by simp) (by simp [hs]) hv hh hk]
  simp [hr, closeW, List.append_assoc]

theorem pingEchoes_shape (l : List (Except BErr RPkt)) (q : SPkt)
    (hq : q ∈ pingEchoes l) : ∃ n, q = .ping n := by
  unfold pingEchoes at hq
  rw [List.mem_filterMap] at hq
  obtain ⟨x, hxl, hx⟩ := hq
  cases x with
  | error e => simp at hx
  | ok p =>
    cases p
    case ping m =>
      simp only [Option.some.injEq] at hx
      exact ⟨m, hx.symm⟩
    all_goals simp at hx

/-- C6: when the version/CD-key auth-check response carries a non-success
result code, `Logon` (via `DialWithConn`) returns the classified domain
error for that code with the connection closed, and no
`SID_AUTH_ACCOUNTLOGON` request is ever sent on the connection. -/
theorem logon_authCheckFail (cl : Client) (env : Env) (w : World)
    (junk1 junk2 : List (Except BErr RPkt)) (ai : AuthInfoResp) (r : Nat)
    (rest : List (Except BErr RPkt)) (srp : SRPS)
    (hsrp : newSRP cl.cfg env cl.cfg.password = .ok srp)
    (hdial : env.dialResult = none)
    (hj1 : plainFor selAuthInfo junk1) (hj2 : plainFor selAuthCheck junk2)
    (hw : w.recvs = junk1 ++ .ok (.authInfoResp ai) ::
      (junk2 ++ .ok (.authCheckResp ⟨r⟩) :: rest))
    (hs : w.sendResults = [])
    (hsig : cl.cfg.verifySignature = false)
    (hv : cl.cfg.exeVersion ≠ 0) (hh : cl.cfg.exeHash ≠ 0)
    (hk : cl.cfg.cdKeys = []) (hr : r ≠ authSuccess)
    (hsent : ∀ ck un, SPkt.logonReq ck un ∉ w.sent) :
    (Logon cl env w).2.1 = .error (authResultToError r) ∧
    (Logon cl env w).2.2.closed = true ∧
    ∀ ck un, SPkt.logonReq ck un ∉ (Logon cl env w).2.2.sent := by
  have hDW := DialWithConn_fail (normalizeServerAddr cl.cfg) env w junk1 junk2
    ai r rest hj1 hj2 hw hs
    (by rw [normalizeServerAddr_verifySignature]; exact hsig)
    (by rw [normalizeServerAddr_exeVersion]; exact hv)
    (by rw [normalizeServerAddr_exeHash]; exact hh)
    (by rw [normalizeServerAddr_cdKeys]; exact hk) hr
  have hD : Dial cl.cfg env w =
      (normalizeServerAddr cl.cfg, (DialWithConn (normalizeServerAddr cl.cfg) env w).1,
       (DialWithConn (normalizeServerAddr cl.cfg) env w).2) := by
    unfold Dial
    rw [hdial, hDW]
  rw [hDW] at hD
  unfold Logon
  rw [hsrp, hD]
  refine ⟨rfl, rfl, ?_⟩
  intro ck un hmem
  simp only [normalizeServerAddr_exeInfo, normalizeServerAddr_exeVersion,
    normalizeServerAddr_exeHash, normalizeServerAddr_cdKeyOwner, closeW,
    List.mem_append, List.mem_singleton] at hmem
  rcases hmem with ((((hmem | hmem) | hmem) | hmem) | hmem)
  · exact hsent ck un hmem
  · exact SPkt.noConfusion hmem
  · exact SPkt.noConfusion hmem
  · obtain ⟨n, hn⟩ := pingEchoes_shape junk1 _ hmem
    exact SPkt.noConfusion hn
  · exact SPkt.noConfusion hmem

/-- Witness for C6: a minimal script whose auth-check result code is 2. -/
theorem logon_authCheckFail_witness :
    (Logon cl0 envOk (mkWorld [.ok (.authInfoResp aiResp0),
        .ok (.authCheckResp ⟨2⟩)])).2.1 = .error (authResultToError 2) ∧
    (Logon cl0 envOk (mkWorld [.ok (.authInfoResp aiResp0),
        .ok (.authCheckResp ⟨2⟩)])).2.2.closed = true := by
  have h := logon_authCheckFail cl0 envOk
    (mkWorld [.ok (.authInfoResp aiResp0), .ok (.authCheckResp ⟨2⟩)])
    [] [] aiResp0 2 [] srpTrue rfl rfl
    (fun x hx => absurd hx (List.not_mem_nil x))
    (fun x hx => absurd hx (List.not_mem_nil x))
    rfl rfl rfl (by decide) (by decide) rfl (by decide)
    (fun ck un => List.not_mem_nil _)
  exact ⟨h.1, h.2.1⟩

theorem sendLogon_ok (cfg : Config) (srp : SRPS)
    (junk : List (Except BErr RPkt)) (resp : AuthAccountLogonResp)
    (rest : List (Except BErr RPkt)) (w : World)
    (hj : plainFor selLogon junk)
    (hw : w.recvs = junk ++ .ok (.logonResp resp) :: rest)
    (hs : w.sendResults = []) :
    sendLogon cfg srp w =
      (.ok resp,
       { w with recvs := rest,
                sent := w.sent ++ [SPkt.logonReq srp.clientKey cfg.username],
                fired := w.fired ++ okPkts junk,
                timeouts := w.timeouts ++
                  15 :: List.replicate junk.length noTimeout }) := by
  unfold sendLogon
  simp only [sendW, hs]
  rw [awaitLoop_ok selLogon junk (.logonResp resp) resp rfl rest
    { w with sendResults := [],
             sent := w.sent ++ [SPkt.logonReq srp.clientKey cfg.username] }
    15 hj (by simp [hw])]

theorem sendLogonProof_ok (srp : SRPS) (logon : AuthAccountLogonResp)
    (junk : List (Except BErr RPkt)) (resp : AuthAccountLogonProofResp)
    (rest : List (Except BErr RPkt)) (w : World)
    (hj : plainFor selLogonProof junk)
    (hw : w.recvs = junk ++ .ok (.logonProofResp resp) :: rest)
    (hs : w.sendResults = []) :
    sendLogonProof srp logon w =
      (.ok resp,
       { w with recvs := rest,
                sent := w.sent ++ [SPkt.logonProofReq
                  (srp.passwordProof logon.serverKey logon.salt)],
                fired := w.fired ++ okPkts junk,
                timeouts := w.timeouts ++
                  10 :: List.replicate junk.length noTimeout }) := by
  unfold sendLogonProof
  simp only [sendW, hs]
  rw [awaitLoop_ok selLogonProof junk (.logonProofResp resp) resp rfl rest
    { w with sendResults := [],
             sent := w.sent ++ [SPkt.logonProofReq
               (srp.passwordProof logon.serverKey logon.salt)] }
    10 hj (by simp [hw])]

/-- C1: when the logon-proof response reports success but the local SRP
verification of the server's counter-proof fails, `Logon` closes the
connection and returns the password-verification trust error: a success
status code alone never yields a successful return. -/
theorem logon_trustError (cl : Client) (env : Env) (w : World)
    (junk1 junk2 junk3 junk4 : List (Except BErr RPkt)) (ai : AuthInfoResp)
    (salt skey sproof : Nat) (rest : List (Except BErr RPkt)) (srp : SRPS)
    (hsrp : newSRP cl.cfg env cl.cfg.password = .ok srp)
    (hver : srp.verifyPassword sproof = false)
    (hdial : env.dialResult = none)
    (hj1 : plainFor selAuthInfo junk1) (hj2 : plainFor selAuthCheck junk2)
    (hj3 : plainFor selLogon junk3) (hj4 : plainFor selLogonProof junk4)
    (hw : w.recvs = junk1 ++ .ok (.authInfoResp ai) ::
      (junk2 ++ .ok (.authCheckResp ⟨authSuccess⟩) ::
      (junk3 ++ .ok (.logonResp ⟨logonSuccess, salt, skey⟩) ::
      (junk4 ++ .ok (.logonProofResp ⟨logonProofSuccess, sproof⟩) :: rest))))
    (hs : w.sendResults = [])
    (hsig : cl.cfg.verifySignature = false)
    (hv : cl.cfg.exeVersion ≠ 0) (hh : cl.cfg.exeHash ≠ 0)
    (hk : cl.cfg.cdKeys = []) :
    (Logon cl env w).2.1 = .error .passwordVerification ∧
    (Logon cl env w).2.2.closed = true := by
  have hDW := DialWithConn_ok (normalizeServerAddr cl.cfg) env w junk1 junk2
    ai (junk3 ++ .ok (.logonResp ⟨logonSuccess, salt, skey⟩) ::
      (junk4 ++ .ok (.logonProofResp ⟨logonProofSuccess, sproof⟩) :: rest))
    hj1 hj2 hw hs
    (by rw [normalizeServerAddr_verifySignature]; exact hsig)
    (by rw [normalizeServerAddr_exeVersion]; exact hv)
    (by rw [normalizeServerAddr_exeHash]; exact hh)
    (by rw [normalizeServerAddr_cdKeys]; exact hk)
  obtain ⟨w4, hDW4, hw4r, hw4s⟩ : ∃ w4,
      DialWithConn (normalizeServerAddr cl.cfg) env w = (.ok (), w4) ∧
      w4.recvs = junk3 ++ .ok (.logonResp ⟨logonSuccess, salt, skey⟩) ::
        (junk4 ++ .ok (.logonProofResp ⟨logonProofSuccess, sproof⟩) :: rest) ∧
      w4.sendResults = [] :=
    ⟨_, hDW, rfl, hs⟩
  have hD : Dial cl.cfg env w = (normalizeServerAddr cl.cfg, .ok (), w4) := by
    unfold Dial
    rw [hdial, hDW4]
  have hL := sendLogon_ok (normalizeServerAddr cl.cfg) srp junk3
    ⟨logonSuccess, salt, skey⟩
    (junk4 ++ .ok (.logonProofResp ⟨logonProofSuccess, sproof⟩) :: rest)
    w4 hj3 hw4r hw4s
  obtain ⟨w5, hL5, hw5r, hw5s⟩ : ∃ w5,
      sendLogon (normalizeServerAddr cl.cfg) srp w4 =
        (.ok ⟨logonSuccess, salt, skey⟩, w5) ∧
      w5.recvs = junk4 ++ .ok (.logonProofResp ⟨logonProofSuccess, sproof⟩) :: rest ∧
      w5.sendResults = [] :=
    ⟨_, hL, rfl, hw4s⟩
  have hP := sendLogonProof_ok srp ⟨logonSuccess, salt, skey⟩ junk4
    ⟨logonProofSuccess, sproof⟩ rest w5 hj4 hw5r hw5s
  obtain ⟨w6, hP6⟩ : ∃ w6,
      sendLogonProof srp ⟨logonSuccess, salt, skey⟩ w5 =
        (.ok ⟨logonProofSuccess, sproof⟩, w6) := ⟨_, hP⟩
  unfold Logon
  simp [hsrp, hD, hL5, hP6, hver, closeW]

/-- Witness for C1: a minimal script reporting logon-proof success while
the SRP oracle rejects the counter-proof. -/
theorem logon_trustError_witness :
    (Logon cl0 envBadProof (mkWorld [.ok (.authInfoResp aiResp0),
        .ok (.authCheckResp ⟨authSuccess⟩),
        .ok (.logonResp ⟨logonSuccess, 8, 9⟩),
        .ok (.logonProofResp ⟨logonProofSuccess, 4⟩)])).2.1 =
      .error .passwordVerification ∧
    (Logon cl0 envBadProof (mkWorld [.ok (.authInfoResp aiResp0),
        .ok (.authCheckResp ⟨authSuccess⟩),
        .ok (.logonResp ⟨logonSuccess, 8, 9⟩),
        .ok (.logonProofResp ⟨logonProofSuccess, 4⟩)])).2.2.closed = true := by
  exact logon_trustError cl0 envBadProof
    (mkWorld [.ok (.authInfoResp aiResp0),
      .ok (.authCheckResp ⟨authSuccess⟩),
      .ok (.logonResp ⟨logonSuccess, 8, 9⟩),
      .ok (.logonProofResp ⟨logonProofSuccess, 4⟩)])
    [] [] [] [] aiResp0 8 9 4 [] srpFalse rfl rfl rfl
    (fun x hx => absurd hx (List.not_mem_nil x))
    (fun x hx => absurd hx (List.not_mem_nil x))
    (fun x hx => absurd hx (List.not_mem_nil x))
    (fun x hx => absurd hx (List.not_mem_nil x))
    rfl rfl rfl (by decide) (by decide) rfl

theorem Dial_cfg (cfg : Config) (env : Env) (w : World) :
    (Dial cfg env w).1 = normalizeServerAddr cfg := by
  unfold Dial
  cases env.dialResult with
  | some e => rfl
  | none =>
    rcases hdw : DialWithConn (normalizeServerAddr cfg) env w with ⟨r, w2⟩
    rfl

/-- C9: `ChangePassword` stores the new password only when every step
succeeds (including result codes and local proof verification); on every
error return the stored password is unchanged. -/
theorem changePassword_password (cl : Client) (env : Env) (npw : String)
    (w : World) :
    ((ChangePassword cl env npw w).2.1 = .ok () →
      (ChangePassword cl env npw w).1.cfg.password = npw) ∧
    (∀ e, (ChangePassword cl env npw w).2.1 = .error e →
      (ChangePassword cl env npw w).1.cfg.password = cl.cfg.password) := by
  have hDp : (Dial cl.cfg env w).1.password = cl.cfg.password := by
    rw [Dial_cfg, normalizeServerAddr_password]
  unfold ChangePassword
  cases h1 : newSRP cl.cfg env cl.cfg.password with
  | error e => simp
  | ok oldSRP =>
    cases h2 : newSRP cl.cfg env npw with
    | error e => simp
    | ok newSRPv =>
      rcases hD : Dial cl.cfg env w with ⟨cfg2, res2, w2⟩
      have hpw2 : cfg2.password = cl.cfg.password := by
        rw [hD] at hDp
        exact hDp
      cases res2 with
      | error e => simp [hD, hpw2]
      | ok u =>
        rcases hCP : sendChangePass cfg2 oldSRP w2 with ⟨res3, w3⟩
        cases res3 with
        | error e => simp [hD, hCP, hpw2]
        | ok resp =>
          by_cases hr : resp.result = logonSuccess
          · rcases hPP : sendChangePassProof oldSRP newSRPv resp w3 with ⟨res4, w4⟩
            cases res4 with
            | error e => simp [hD, hCP, hPP, hr, hpw2]
            | ok proof =>
              by_cases hr2 : proof.result = logonProofSuccess
              · by_cases hvp :
                    oldSRP.verifyPassword proof.serverPasswordProof = true
                · simp [hD, hCP, hPP, hr, hr2, hvp]
                · rw [Bool.not_eq_true] at hvp
                  simp [hD, hCP, hPP, hr, hr2, hvp, hpw2]
              · simp [hD, hCP, hPP, hr, hr2, hpw2]
          · simp [hD, hCP, hr, hpw2]

/-- Witness for C9: a fully successful password change stores the new
password. -/
theorem changePassword_password_witness :
    (ChangePassword cl0 envOk "npw" (mkWorld [.ok (.authInfoResp aiResp0),
        .ok (.authCheckResp ⟨authSuccess⟩),
        .ok (.changePassResp ⟨logonSuccess, 1, 2⟩),
        .ok (.changePassProofResp ⟨logonProofSuccess, 3⟩)])).2.1 = .ok () ∧
    (ChangePassword cl0 envOk "npw" (mkWorld [.ok (.authInfoResp aiResp0),
        .ok (.authCheckResp ⟨authSuccess⟩),
        .ok (.changePassResp ⟨logonSuccess, 1, 2⟩),
        .ok (.changePassProofResp ⟨logonProofSuccess, 3⟩)])).1.cfg.password =
      "npw" := by
  refine ⟨by decide, (changePassword_password cl0 envOk "npw"
    (mkWorld [.ok (.authInfoResp aiResp0),
      .ok (.authCheckResp ⟨authSuccess⟩),
      .ok (.changePassResp ⟨logonSuccess, 1, 2⟩),
      .ok (.changePassProofResp ⟨logonProofSuccess, 3⟩)])).1 (by decide)⟩

theorem agrees_self (a : Config) : agreesExceptAddrPw a a := by
  simp [agreesExceptAddrPw]

theorem agrees_norm (a : Config) :
    agreesExceptAddrPw a (normalizeServerAddr a) := by
  unfold agreesExceptAddrPw normalizeServerAddr
  split <;> simp

theorem agrees_norm_pw (a : Config) (npw : String) :
    agreesExceptAddrPw a { normalizeServerAddr a with password := npw } := by
  unfold agreesExceptAddrPw normalizeServerAddr
  split <;> simp

theorem addrNorm_self (a : Config) : addrNormalized a a := Or.inl rfl

theorem addrNorm_norm (a : Config) :
    addrNormalized a (normalizeServerAddr a) :=
  normalizeServerAddr_serverAddr a

theorem addrNorm_norm_pw (a : Config) (npw : String) :
    addrNormalized a { normalizeServerAddr a with password := npw } := by
  unfold addrNormalized
  simpa using normalizeServerAddr_serverAddr a

theorem Logon_cfg (cl : Client) (env : Env) (w : World) :
    (Logon cl env w).1.cfg = cl.cfg ∨
    (Logon cl env w).1.cfg = normalizeServerAddr cl.cfg := by
  unfold Logon
  cases h1 : newSRP cl.cfg env cl.cfg.password with
  | error e => simp
  | ok srp =>
    rcases hD : Dial cl.cfg env w with ⟨cfg2, res2, w2⟩
    have hc2 : cfg2 = normalizeServerAddr cl.cfg := by
      have h := Dial_cfg cl.cfg env w
      rw [hD] at h
      exact h
    subst hc2
    cases res2 with
    | error e => simp [hD]
    | ok u =>
      rcases hL : sendLogon (normalizeServerAddr cl.cfg) srp w2 with ⟨res3, w3⟩
      cases res3 with
      | error e => simp [hD, hL]
      | ok logon =>
        by_cases hr : logon.result = logonSuccess
        · rcases hP : sendLogonProof srp logon w3 with ⟨res4, w4⟩
          cases res4 with
          | error e => simp [hD, hL, hP, hr]
          | ok proof =>
            by_cases h5 : proof.result = logonProofSuccess
            · by_cases hv : srp.verifyPassword proof.serverPasswordProof = true
              · rcases hEC : sendEnterChat (normalizeServerAddr cl.cfg) w4 with ⟨res6, w6⟩
                cases res6 with
                | error e => simp [hD, hL, hP, hr, h5, hv, hEC]
                | ok chat =>
                  rcases hJC : sendW (.joinChannel channelJoinFirst "W3") w6
                    with ⟨os, w7⟩
                  cases os with
                  | none => simp [hD, hL, hP, hr, h5, hv, hEC, hJC]
                  | some e => simp [hD, hL, hP, hr, h5, hv, hEC, hJC]
              · rw [Bool.not_eq_true] at hv
                simp [hD, hL, hP, hr, h5, hv]
            · by_cases h6 : proof.result = logonProofRequireEmail
              · rcases hSE : sendW (.setEmail "") w4 with ⟨os, w5⟩
                cases os with
                | some e => simp [hD, hL, hP, hr, h5, h6, hSE, logonProofRequireEmail, logonProofSuccess]
                | none =>
                  by_cases hv :
                      srp.verifyPassword proof.serverPasswordProof = true
                  · rcases hEC : sendEnterChat (normalizeServerAddr cl.cfg) w5 with ⟨res6, w6⟩
                    cases res6 with
                    | error e =>
                      simp [hD, hL, hP, hr, h5, h6, hSE, hv, hEC, logonProofRequireEmail, logonProofSuccess]
                    | ok chat =>
                      rcases hJC : sendW (.joinChannel channelJoinFirst "W3") w6
                        with ⟨os2, w7⟩
                      cases os2 with
                      | none =>
                        simp [hD, hL, hP, hr, h5, h6, hSE, hv, hEC, hJC, logonProofRequireEmail, logonProofSuccess]
                      | some e =>
                        simp [hD, hL, hP, hr, h5, h6, hSE, hv, hEC, hJC, logonProofRequireEmail, logonProofSuccess]
                  · rw [Bool.not_eq_true] at hv
                    simp [hD, hL, hP, hr, h5, h6, hSE, hv, logonProofRequireEmail, logonProofSuccess]
              · simp [hD, hL, hP, hr, h5, h6]
        · simp [hD, hL, hr]

theorem CreateAccount_cfg (cl : Client) (env : Env) (w : World) :
    (CreateAccount cl env w).1.cfg = cl.cfg ∨
    (CreateAccount cl env w).1.cfg = normalizeServerAddr cl.cfg := by
  unfold CreateAccount
  cases h1 : newSRP cl.cfg env cl.cfg.password with
  | error e => simp
  | ok srp =>
    rcases hD : Dial cl.cfg env w with ⟨cfg2, res2, w2⟩
    have hc2 : cfg2 = normalizeServerAddr cl.cfg := by
      have h := Dial_cfg cl.cfg env w
      rw [hD] at h
      exact h
    subst hc2
    cases res2 with
    | error e => simp [hD]
    | ok u =>
      rcases hC : sendCreateAccount (normalizeServerAddr cl.cfg) srp w2 with ⟨res3, w3⟩
      cases res3 with
      | error e => simp [hD, hC]
      | ok create =>
        by_cases hr : create.result = accountCreateSuccess
        · simp [hD, hC, hr]
        · simp [hD, hC, hr]

theorem ChangePassword_cfg (cl : Client) (env : Env) (npw : String)
    (w : World) :
    (ChangePassword cl env npw w).1.cfg = cl.cfg ∨
    (ChangePassword cl env npw w).1.cfg = normalizeServerAddr cl.cfg ∨
    ((ChangePassword cl env npw w).2.1 = .ok () ∧
     (ChangePassword cl env npw w).1.cfg =
       { normalizeServerAddr cl.cfg with password := npw }) := by
  unfold ChangePassword
  cases h1 : newSRP cl.cfg env cl.cfg.password with
  | error e => simp
  | ok oldSRP =>
    cases h2 : newSRP cl.cfg env npw with
    | error e => simp
    | ok newSRPv =>
      rcases hD : Dial cl.cfg env w with ⟨cfg2, res2, w2⟩
      have hc2 : cfg2 = normalizeServerAddr cl.cfg := by
        have h := Dial_cfg cl.cfg env w
        rw [hD] at h
        exact h
      subst hc2
      cases res2 with
      | error e => simp [hD]
      | ok u =>
        rcases hCP : sendChangePass (normalizeServerAddr cl.cfg) oldSRP w2 with ⟨res3, w3⟩
        cases res3 with
        | error e => simp [hD, hCP]
        | ok resp =>
          by_cases hr : resp.result = logonSuccess
          · rcases hPP : sendChangePassProof oldSRP newSRPv resp w3
              with ⟨res4, w4⟩
            cases res4 with
            | error e => simp [hD, hCP, hPP, hr]
            | ok proof =>
              by_cases hr2 : proof.result = logonProofSuccess
              · by_cases hvp :
                    oldSRP.verifyPassword proof.serverPasswordProof = true
                · simp [hD, hCP, hPP, hr, hr2, hvp]
                · rw [Bool.not_eq_true] at hvp
                  simp [hD, hCP, hPP, hr, hr2, hvp]
              · simp [hD, hCP, hPP, hr, hr2]
          · simp [hD, hCP, hr]

/-- C8 fails on the code: a `Dial` with an address lacking a port appends
":6112" to `Config.ServerAddr`, so the configuration is not unchanged. -/
theorem config_frame_counterexample :
    (Dial cfgNoColon envNoDial (mkWorld [])).1.serverAddr ≠
      cfgNoColon.serverAddr := by
  decide

/-- C8 (amended): every call to `Dial`, `Logon`, `CreateAccount` and
`ChangePassword` leaves all Config fields unchanged except `ServerAddr`,
which may only gain the default port suffix ":6112", and `Password`, which
only a fully successful `ChangePassword` replaces with the new password. -/
theorem config_frame (cl : Client) (env : Env) (w : World) (npw : String) :
    (agreesExceptAddrPw cl.cfg (Dial cl.cfg env w).1 ∧
     addrNormalized cl.cfg (Dial cl.cfg env w).1 ∧
     (Dial cl.cfg env w).1.password = cl.cfg.password) ∧
    (agreesExceptAddrPw cl.cfg (Logon cl env w).1.cfg ∧
     addrNormalized cl.cfg (Logon cl env w).1.cfg ∧
     (Logon cl env w).1.cfg.password = cl.cfg.password) ∧
    (agreesExceptAddrPw cl.cfg (CreateAccount cl env w).1.cfg ∧
     addrNormalized cl.cfg (CreateAccount cl env w).1.cfg ∧
     (CreateAccount cl env w).1.cfg.password = cl.cfg.password) ∧
    (agreesExceptAddrPw cl.cfg (ChangePassword cl env npw w).1.cfg ∧
     addrNormalized cl.cfg (ChangePassword cl env npw w).1.cfg ∧
     ((ChangePassword cl env npw w).1.cfg.password = cl.cfg.password ∨
      ((ChangePassword cl env npw w).2.1 = .ok () ∧
       (ChangePassword cl env npw w).1.cfg.password = npw))) := by
  refine ⟨⟨?_, ?_, ?_⟩, ?_, ?_, ?_⟩
  · rw [Dial_cfg]
    exact agrees_norm cl.cfg
  · rw [Dial_cfg]
    exact addrNorm_norm cl.cfg
  · rw [Dial_cfg]
    exact normalizeServerAddr_password cl.cfg
  · rcases Logon_cfg cl env w with h | h <;> rw [h]
    · exact ⟨agrees_self cl.cfg, addrNorm_self cl.cfg, rfl⟩
    · exact ⟨agrees_norm cl.cfg, addrNorm_norm cl.cfg,
        normalizeServerAddr_password cl.cfg⟩
  · rcases CreateAccount_cfg cl env w with h | h <;> rw [h]
    · exact ⟨agrees_self cl.cfg, addrNorm_self cl.cfg, rfl⟩
    · exact ⟨agrees_norm cl.cfg, addrNorm_norm cl.cfg,
        normalizeServerAddr_password cl.cfg⟩
  · rcases ChangePassword_cfg cl env npw w with h | h | ⟨hok, h⟩ <;> rw [h]
    · exact ⟨agrees_self cl.cfg, addrNorm_self cl.cfg, Or.inl rfl⟩
    · exact ⟨agrees_norm cl.cfg, addrNorm_norm cl.cfg,
        Or.inl (normalizeServerAddr_password cl.cfg)⟩
    · exact ⟨agrees_norm_pw cl.cfg npw, addrNorm_norm_pw cl.cfg npw,
        Or.inr ⟨hok, rfl⟩⟩

theorem utf8Encode_cons (c : Nat) (l : List Nat) :
    utf8Encode (c :: l) = utf8EncodeChar c ++ utf8Encode l := by
  simp [utf8Encode]

theorem utf8EncodeChar_length_pos (c : Nat) :
    0 < (utf8EncodeChar c).length := by
  unfold utf8EncodeChar
  split_ifs <;> simp

theorem decodeReplace_encodeChar (c : Nat) (junk : List Nat)
    (hc : ValidScalar c) :
    decodeReplace (utf8EncodeChar c ++ junk) = c :: decodeReplace junk := by
  obtain ⟨hlt, hsur⟩ := hc
  by_cases h1 : c < 0x80
  · have e1 : utf8EncodeChar c = [c] := by simp [utf8EncodeChar, h1]
    have hstep : decodeStep c junk = some (c, 0) := by
      simp [decodeStep, h1]
    rw [e1, List.singleton_append, decodeReplace, hstep]
    simp
  · by_cases h2 : c < 0x800
    · have e1 : utf8EncodeChar c = [0xC0 + c / 0x40, 0x80 + c % 0x40] := by
        simp [utf8EncodeChar, h1, h2]
      have hA : ¬ (0xC0 + c / 0x40 < 0x80) := by omega
      have hB : 0xC0 ≤ 0xC0 + c / 0x40 ∧ 0xC0 + c / 0x40 < 0xE0 := by omega
      have hC : 0x80 ≤ 0x80 + c % 0x40 ∧ 0x80 + c % 0x40 < 0xC0 ∧
          0x80 ≤ (0xC0 + c / 0x40 - 0xC0) * 0x40 + (0x80 + c % 0x40 - 0x80) := by
        simp only [Nat.add_sub_cancel_left]
        omega
      have hstep : decodeStep (0xC0 + c / 0x40) ((0x80 + c % 0x40) :: junk) =
          some ((0xC0 + c / 0x40 - 0xC0) * 0x40 + (0x80 + c % 0x40 - 0x80), 1) := by
        unfold decodeStep
        rw [if_neg hA, if_pos hB]
        simp only [if_pos hC]
      have hmain : decodeReplace ((0xC0 + c / 0x40) :: (0x80 + c % 0x40) :: junk) =
          ((0xC0 + c / 0x40 - 0xC0) * 0x40 + (0x80 + c % 0x40 - 0x80)) ::
            decodeReplace junk := by
        rw [decodeReplace, hstep]
        simp
      rw [e1, List.cons_append, List.cons_append, List.nil_append, hmain]
      congr 1
      simp only [Nat.add_sub_cancel_left]
      omega
    · by_cases h3 : c < 0x10000
      · have e1 : utf8EncodeChar c =
            [0xE0 + c / 0x1000, 0x80 + c / 0x40 % 0x40, 0x80 + c % 0x40] := by
          simp [utf8EncodeChar, h1, h2, h3]
        have hA : ¬ (0xE0 + c / 0x1000 < 0x80) := by omega
        have hB : ¬ (0xC0 ≤ 0xE0 + c / 0x1000 ∧ 0xE0 + c / 0x1000 < 0xE0) := by
          omega
        have hC : 0xE0 ≤ 0xE0 + c / 0x1000 ∧ 0xE0 + c / 0x1000 < 0xF0 := by
          omega
        have hD : 0x80 ≤ 0x80 + c / 0x40 % 0x40 ∧ 0x80 + c / 0x40 % 0x40 < 0xC0 ∧
            0x80 ≤ 0x80 + c % 0x40 ∧ 0x80 + c % 0x40 < 0xC0 ∧
            0x800 ≤ (0xE0 + c / 0x1000 - 0xE0) * 0x1000 +
              (0x80 + c / 0x40 % 0x40 - 0x80) * 0x40 + (0x80 + c % 0x40 - 0x80) ∧
            ¬ (0xD800 ≤ (0xE0 + c / 0x1000 - 0xE0) * 0x1000 +
                 (0x80 + c / 0x40 % 0x40 - 0x80) * 0x40 + (0x80 + c % 0x40 - 0x80) ∧
               (0xE0 + c / 0x1000 - 0xE0) * 0x1000 +
                 (0x80 + c / 0x40 % 0x40 - 0x80) * 0x40 + (0x80 + c % 0x40 - 0x80) <
                 0xE000) := by
          simp only [Nat.add_sub_cancel_left]
          omega
        have hstep : decodeStep (0xE0 + c / 0x1000)
            ((0x80 + c / 0x40 % 0x40) :: (0x80 + c % 0x40) :: junk) =
            some ((0xE0 + c / 0x1000 - 0xE0) * 0x1000 +
              (0x80 + c / 0x40 % 0x40 - 0x80) * 0x40 + (0x80 + c % 0x40 - 0x80),
              2) := by
          unfold decodeStep
          rw [if_neg hA, if_neg hB, if_pos hC]
          simp only [if_pos hD]
        have hmain : decodeReplace ((0xE0 + c / 0x1000) ::
            (0x80 + c / 0x40 % 0x40) :: (0x80 + c % 0x40) :: junk) =
            ((0xE0 + c / 0x1000 - 0xE0) * 0x1000 +
              (0x80 + c / 0x40 % 0x40 - 0x80) * 0x40 + (0x80 + c % 0x40 - 0x80)) ::
              decodeReplace junk := by
          rw [decodeReplace, hstep]
          simp
        rw [e1, List.cons_append, List.cons_append, List.cons_append,
          List.nil_append, hmain]
        congr 1
        simp only [Nat.add_sub_cancel_left]
        omega
      · have e1 : utf8EncodeChar c =
            [0xF0 + c / 0x40000, 0x80 + c / 0x1000 % 0x40,
             0x80 + c / 0x40 % 0x40, 0x80 + c % 0x40] := by
          simp [utf8EncodeChar, h1, h2, h3]
        have hA : ¬ (0xF0 + c / 0x40000 < 0x80) := by omega
        have hB : ¬ (0xC0 ≤ 0xF0 + c / 0x40000 ∧ 0xF0 + c / 0x40000 < 0xE0) := by
          omega
        have hC : ¬ (0xE0 ≤ 0xF0 + c / 0x40000 ∧ 0xF0 + c / 0x40000 < 0xF0) := by
          omega
        have hD : 0xF0 ≤ 0xF0 + c / 0x40000 ∧ 0xF0 + c / 0x40000 < 0xF5 := by
          omega
        have hE : 0x80 ≤ 0x80 + c / 0x1000 % 0x40 ∧ 0x80 + c / 0x1000 % 0x40 < 0xC0 ∧
            0x80 ≤ 0x80 + c / 0x40 % 0x40 ∧ 0x80 + c / 0x40 % 0x40 < 0xC0 ∧
            0x80 ≤ 0x80 + c % 0x40 ∧ 0x80 + c % 0x40 < 0xC0 ∧
            0x10000 ≤ (0xF0 + c / 0x40000 - 0xF0) * 0x40000 +
              (0x80 + c / 0x1000 % 0x40 - 0x80) * 0x1000 +
              (0x80 + c / 0x40 % 0x40 - 0x80) * 0x40 + (0x80 + c % 0x40 - 0x80) ∧
            (0xF0 + c / 0x40000 - 0xF0) * 0x40000 +
              (0x80 + c / 0x1000 % 0x40 - 0x80) * 0x1000 +
              (0x80 + c / 0x40 % 0x40 - 0x80) * 0x40 + (0x80 + c % 0x40 - 0x80) <
              0x110000 := by
          simp only [Nat.add_sub_cancel_left]
          omega
        have hstep : decodeStep (0xF0 + c / 0x40000)
            ((0x80 + c / 0x1000 % 0x40) :: (0x80 + c / 0x40 % 0x40) ::
              (0x80 + c % 0x40) :: junk) =
            some ((0xF0 + c / 0x40000 - 0xF0) * 0x40000 +
              (0x80 + c / 0x1000 % 0x40 - 0x80) * 0x1000 +
              (0x80 + c / 0x40 % 0x40 - 0x80) * 0x40 + (0x80 + c % 0x40 - 0x80),
              3) := by
          unfold decodeStep
          rw [if_neg hA, if_neg hB, if_neg hC, if_pos hD]
          simp only [if_pos hE]
        have hmain : decodeReplace ((0xF0 + c / 0x40000) ::
            (0x80 + c / 0x1000 % 0x40) :: (0x80 + c / 0x40 % 0x40) ::
            (0x80 + c % 0x40) :: junk) =
            ((0xF0 + c / 0x40000 - 0xF0) * 0x40000 +
              (0x80 + c / 0x1000 % 0x40 - 0x80) * 0x1000 +
              (0x80 + c / 0x40 % 0x40 - 0x80) * 0x40 + (0x80 + c % 0x40 - 0x80)) ::
              decodeReplace junk := by
          rw [decodeReplace, hstep]
          simp
        rw [e1, List.cons_append, List.cons_append, List.cons_append,
          List.cons_append, List.nil_append, hmain]
        congr 1
        simp only [Nat.add_sub_cancel_left]
        omega

theorem decodeReplace_contOnly (l : List Nat)
    (h : ∀ b ∈ l, 0x80 ≤ b ∧ b < 0xC0) :
    ∀ x ∈ decodeReplace l, x = 0xFFFD := by
  induction l with
  | nil => simp [decodeReplace]
  | cons b bs ih =>
    have hb := h b (List.mem_cons_self _ _)
    intro x hx
    have hstep : decodeStep b bs = none := by
      unfold decodeStep
      rw [if_neg (by omega : ¬ b < 0x80),
        if_neg (by omega : ¬ (0xC0 ≤ b ∧ b < 0xE0)),
        if_neg (by omega : ¬ (0xE0 ≤ b ∧ b < 0xF0)),
        if_neg (by omega : ¬ (0xF0 ≤ b ∧ b < 0xF5))]
    rw [decodeReplace, hstep] at hx
    simp only [] at hx
    have hx' : x ∈ 0xFFFD :: decodeReplace bs := hx
    rcases List.mem_cons.mp hx' with h' | h'
    · exact h'
    · exact ih (fun y hy => h y (List.mem_cons_of_mem _ hy)) x h'

theorem decodeReplace_truncated (c m : Nat) (hc : ValidScalar c)
    (h0 : 0 < m) (hm : m < (utf8EncodeChar c).length) :
    ∀ x ∈ decodeReplace ((utf8EncodeChar c).take m), x = 0xFFFD := by
  obtain ⟨hlt, hsur⟩ := hc
  by_cases h1 : c < 0x80
  · rw [show utf8EncodeChar c = [c] by simp [utf8EncodeChar, h1]] at hm
    simp at hm
    omega
  · by_cases h2 : c < 0x800
    · have e1 : utf8EncodeChar c = [0xC0 + c / 0x40, 0x80 + c % 0x40] := by
        simp [utf8EncodeChar, h1, h2]
      rw [e1] at hm ⊢
      simp only [List.length_cons, List.length_nil] at hm
      obtain rfl : m = 1 := by omega
      have hstep : decodeStep (0xC0 + c / 0x40) ([] : List Nat) = none := by
        unfold decodeStep
        rw [if_neg (by omega : ¬ 0xC0 + c / 0x40 < 0x80),
          if_pos (by omega : 0xC0 ≤ 0xC0 + c / 0x40 ∧ 0xC0 + c / 0x40 < 0xE0)]
      intro x hx
      rw [show ([0xC0 + c / 0x40, 0x80 + c % 0x40] : List Nat).take 1 =
        [0xC0 + c / 0x40] from rfl] at hx
      rw [decodeReplace, hstep] at hx
      have hx' : x ∈ [(0xFFFD : Nat)] := by
        simpa [decodeReplace] using hx
      simpa using hx'
    · by_cases h3 : c < 0x10000
      · have e1 : utf8EncodeChar c =
            [0xE0 + c / 0x1000, 0x80 + c / 0x40 % 0x40, 0x80 + c % 0x40] := by
          simp [utf8EncodeChar, h1, h2, h3]
        have hA : ¬ 0xE0 + c / 0x1000 < 0x80 := by omega
        have hB : ¬ (0xC0 ≤ 0xE0 + c / 0x1000 ∧ 0xE0 + c / 0x1000 < 0xE0) := by
          omega
        have hC : 0xE0 ≤ 0xE0 + c / 0x1000 ∧ 0xE0 + c / 0x1000 < 0xF0 := by
          omega
        rw [e1] at hm ⊢
        simp only [List.length_cons, List.length_nil] at hm
        intro x hx
        have hcont : ∀ y ∈ [0x80 + c / 0x40 % 0x40],
            0x80 ≤ y ∧ y < 0xC0 := by
          intro y hy
          simp at hy
          omega
        rcases (by omega : m = 1 ∨ m = 2) with rfl | rfl
        · have hstep : decodeStep (0xE0 + c / 0x1000) ([] : List Nat) = none := by
            unfold decodeStep
            rw [if_neg hA, if_neg hB, if_pos hC]
          rw [show ([0xE0 + c / 0x1000, 0x80 + c / 0x40 % 0x40,
            0x80 + c % 0x40] : List Nat).take 1 = [0xE0 + c / 0x1000] from rfl,
            decodeReplace, hstep] at hx
          have hx' : x ∈ [(0xFFFD : Nat)] := by
            simpa [decodeReplace] using hx
          simpa using hx'
        · have hstep : decodeStep (0xE0 + c / 0x1000)
              [0x80 + c / 0x40 % 0x40] = none := by
            unfold decodeStep
            rw [if_neg hA, if_neg hB, if_pos hC]
          rw [show ([0xE0 + c / 0x1000, 0x80 + c / 0x40 % 0x40,
            0x80 + c % 0x40] : List Nat).take 2 =
            [0xE0 + c / 0x1000, 0x80 + c / 0x40 % 0x40] from rfl,
            decodeReplace, hstep] at hx
          have hx' : x ∈ 0xFFFD :: decodeReplace [0x80 + c / 0x40 % 0x40] := hx
          rcases List.mem_cons.mp hx' with h' | h'
          · exact h'
          · exact decodeReplace_contOnly _ hcont x h'
      · have e1 : utf8EncodeChar c =
            [0xF0 + c / 0x40000, 0x80 + c / 0x1000 % 0x40,
             0x80 + c / 0x40 % 0x40, 0x80 + c % 0x40] := by
          simp [utf8EncodeChar, h1, h2, h3]
        have hA : ¬ 0xF0 + c / 0x40000 < 0x80 := by omega
        have hB : ¬ (0xC0 ≤ 0xF0 + c / 0x40000 ∧ 0xF0 + c / 0x40000 < 0xE0) := by
          omega
        have hC : ¬ (0xE0 ≤ 0xF0 + c / 0x40000 ∧ 0xF0 + c / 0x40000 < 0xF0) := by
          omega
        have hD : 0xF0 ≤ 0xF0 + c / 0x40000 ∧ 0xF0 + c / 0x40000 < 0xF5 := by
          omega
        rw [e1] at hm ⊢
        simp only [List.length_cons, List.length_nil] at hm
        intro x hx
        rcases (by omega : m = 1 ∨ m = 2 ∨ m = 3) with rfl | rfl | rfl
        · have hstep : decodeStep (0xF0 + c / 0x40000) ([] : List Nat) = none := by
            unfold decodeStep
            rw [if_neg hA, if_neg hB, if_neg hC, if_pos hD]
          rw [show ([0xF0 + c / 0x40000, 0x80 + c / 0x1000 % 0x40,
            0x80 + c / 0x40 % 0x40, 0x80 + c % 0x40] : List Nat).take 1 =
            [0xF0 + c / 0x40000] from rfl, decodeReplace, hstep] at hx
          have hx' : x ∈ [(0xFFFD : Nat)] := by
            simpa [decodeReplace] using hx
          simpa using hx'
        · have hstep : decodeStep (0xF0 + c / 0x40000)
              [0x80 + c / 0x1000 % 0x40] = none := by
            unfold decodeStep
            rw [if_neg hA, if_neg hB, if_neg hC, if_pos hD]
          rw [show ([0xF0 + c / 0x40000, 0x80 + c / 0x1000 % 0x40,
            0x80 + c / 0x40 % 0x40, 0x80 + c % 0x40] : List Nat).take 2 =
            [0xF0 + c / 0x40000, 0x80 + c / 0x1000 % 0x40] from rfl,
            decodeReplace, hstep] at hx
          have hx' : x ∈ 0xFFFD :: decodeReplace [0x80 + c / 0x1000 % 0x40] := hx
          rcases List.mem_cons.mp hx' with h' | h'
          · exact h'
          · refine decodeReplace_contOnly _ ?_ x h'
            intro y hy
            simp at hy
            omega
        · have hstep : decodeStep (0xF0 + c / 0x40000)
              [0x80 + c / 0x1000 % 0x40, 0x80 + c / 0x40 % 0x40] = none := by
            unfold decodeStep
            rw [if_neg hA, if_neg hB, if_neg hC, if_pos hD]
          rw [show ([0xF0 + c / 0x40000, 0x80 + c / 0x1000 % 0x40,
            0x80 + c / 0x40 % 0x40, 0x80 + c % 0x40] : List Nat).take 3 =
            [0xF0 + c / 0x40000, 0x80 + c / 0x1000 % 0x40,
             0x80 + c / 0x40 % 0x40] from rfl, decodeReplace, hstep] at hx
          have hx' : x ∈ 0xFFFD ::
              decodeReplace [0x80 + c / 0x1000 % 0x40, 0x80 + c / 0x40 % 0x40] := hx
          rcases List.mem_cons.mp hx' with h' | h'
          · exact h'
          · refine decodeReplace_contOnly _ ?_ x h'
            intro y hy
            simp at hy
            rcases hy with rfl | rfl <;> omega

theorem decodeReplace_take_encode (cs : List Nat) :
    ∀ n, (∀ c ∈ cs, ValidScalar c) →
      ∀ x ∈ decodeReplace ((utf8Encode cs).take n), x ∈ cs ∨ x = 0xFFFD := by
  induction cs with
  | nil =>
    intro n hv x hx
    simp [utf8Encode, decodeReplace] at hx
  | cons c cs2 ih =>
    intro n hv x hx
    have hc := hv c (List.mem_cons_self _ _)
    rw [utf8Encode_cons] at hx
    rcases Nat.lt_or_ge n (utf8EncodeChar c).length with hn | hn
    · rcases Nat.eq_zero_or_pos n with rfl | h0
      · simp [decodeReplace] at hx
      · rw [List.take_append_of_le_length (Nat.le_of_lt hn)] at hx
        right
        exact decodeReplace_truncated c n hc h0 hn x hx
    · rw [List.take_append_eq_append_take, List.take_of_length_le hn,
        decodeReplace_encodeChar c _ hc] at hx
      rcases List.mem_cons.mp hx with rfl | h'
      · exact Or.inl (List.mem_cons_self _ _)
      · rcases ih (n - (utf8EncodeChar c).length)
          (fun y hy => hv y (List.mem_cons_of_mem _ hy)) x h' with h2 | h2
        · exact Or.inl (List.mem_cons_of_mem _ h2)
        · exact Or.inr h2

/-- C7: the chat filter output never exceeds 254 bytes, and every
character of the output (under Go's replacement-character decoding) is
printable, given that the printability predicate accepts the replacement
character, as `unicode.IsPrint` does. -/
theorem filterChat_printable (emojiReplace : List Nat → List Nat)
    (isPrint : Nat → Bool) (s : List Nat)
    (hvalid : ∀ c ∈ emojiReplace s, ValidScalar c)
    (hrepl : isPrint 0xFFFD = true) :
    (filterChat emojiReplace isPrint s).length ≤ 254 ∧
    ∀ c ∈ decodeReplace (filterChat emojiReplace isPrint s),
      isPrint c = true := by
  have hv : ∀ c ∈ (emojiReplace s).filter isPrint, ValidScalar c :=
    fun c hcl => hvalid c (List.mem_of_mem_filter hcl)
  have hp : ∀ c ∈ (emojiReplace s).filter isPrint, isPrint c = true :=
    fun c hcl => List.of_mem_filter hcl
  simp only [filterChat]
  constructor
  · split
    · simp [List.length_take]
    · rename_i hlen
      omega
  · split
    · intro x hx
      rcases decodeReplace_take_encode ((emojiReplace s).filter isPrint) 254
        hv x hx with h | h
      · exact hp x h
      · rw [h]
        exact hrepl
    · intro x hx
      rw [← List.take_length
        (utf8Encode ((emojiReplace s).filter isPrint))] at hx
      rcases decodeReplace_take_encode ((emojiReplace s).filter isPrint) _
        hv x hx with h | h
      · exact hp x h
      · rw [h]
        exact hrepl

/-- Witness for C7: an identity emoji replacer and an ASCII printability
predicate on a small message containing one control character. -/
theorem filterChat_printable_witness :
    (filterChat (fun l => l) isPrint0 [0x48, 0x07, 0x69]).length ≤ 254 ∧
    ∀ c ∈ decodeReplace (filterChat (fun l => l) isPrint0 [0x48, 0x07, 0x69]),
      isPrint0 c = true :=
  filterChat_printable (fun l => l) isPrint0 [0x48, 0x07, 0x69]
    (by decide) (by decide)

/-- C10: when the chat filter empties the message, `Say` returns success
and leaves the connection untouched, so in particular nothing is sent;
hence a packet appears in the trace only when the filtered message is
non-empty. -/
theorem say_emptyFilter (emojiReplace : List Nat → List Nat)
    (isPrint : Nat → Bool) (s : List Nat) (w : World)
    (h : filterChat emojiReplace isPrint s = []) :
    Say emojiReplace isPrint s w = (none, w) ∧
    (Say emojiReplace isPrint s w).2.sent = w.sent := by
  constructor
  · simp [Say, h]
  · simp [Say, h]

namespace capi

theorem getElem_of_drop_at (l : List Nat) (p k v : Nat)
    (h : (l.drop p)[k]? = some v) : l[p + k]? = some v := by
  rw [List.getElem?_drop] at h
  exact h

theorem drop_shift (l : List Nat) (p k : Nat) :
    l.drop (p + k) = (l.drop p).drop k := by
  rw [List.drop_drop, Nat.add_comm]

theorem readU8_ok (b : Buffer) (v : Nat) (rest : List Nat)
    (h : b.bytes.drop b.pos = v :: rest) :
    readU8 b = some (v, { b with pos := b.pos + 1 }) ∧
    b.bytes.drop (b.pos + 1) = rest ∧ b.pos + 1 ≤ b.bytes.length := by
  have h0 : b.bytes[b.pos]? = some v := by
    have := getElem_of_drop_at b.bytes b.pos 0 v (by rw [h]; simp)
    simpa using this
  have hlen : b.bytes.length - b.pos = rest.length + 1 := by
    have := congrArg List.length h
    simpa [List.length_drop] using this
  refine ⟨by simp [readU8, h0], ?_, by omega⟩
  rw [drop_shift, h]
  rfl

theorem readU16_ok (b : Buffer) (v : Nat) (rest : List Nat)
    (h : b.bytes.drop b.pos = u16LE v ++ rest) :
    readU16 b = some (v % 65536, { b with pos := b.pos + 2 }) ∧
    b.bytes.drop (b.pos + 2) = rest ∧ b.pos + 2 ≤ b.bytes.length := by
  have h' : b.bytes.drop b.pos = v % 256 :: (v / 256 % 256 :: rest) := by
    simpa [u16LE] using h
  have h0 : b.bytes[b.pos]? = some (v % 256) := by
    have := getElem_of_drop_at b.bytes b.pos 0 (v % 256) (by rw [h']; simp)
    simpa using this
  have h1 : b.bytes[b.pos + 1]? = some (v / 256 % 256) :=
    getElem_of_drop_at b.bytes b.pos 1 _ (by rw [h']; simp)
  have hlen : b.bytes.length - b.pos = rest.length + 2 := by
    have := congrArg List.length h'
    simpa [List.length_drop] using this
  have harith : v % 256 + 256 * (v / 256 % 256) = v % 65536 := by omega
  refine ⟨by simp [readU16, h0, h1, harith], ?_, by omega⟩
  rw [drop_shift, h']
  rfl

theorem readU32_ok (b : Buffer) (v : Nat) (rest : List Nat)
    (h : b.bytes.drop b.pos = u32LE v ++ rest) :
    readU32 b = some (v % 4294967296, { b with pos := b.pos + 4 }) ∧
    b.bytes.drop (b.pos + 4) = rest ∧ b.pos + 4 ≤ b.bytes.length := by
  have h' : b.bytes.drop b.pos = v % 256 :: (v / 256 % 256 ::
      (v / 65536 % 256 :: (v / 16777216 % 256 :: rest))) := by
    simpa [u32LE] using h
  have h0 : b.bytes[b.pos]? = some (v % 256) := by
    have := getElem_of_drop_at b.bytes b.pos 0 (v % 256) (by rw [h']; simp)
    simpa using this
  have h1 : b.bytes[b.pos + 1]? = some (v / 256 % 256) :=
    getElem_of_drop_at b.bytes b.pos 1 _ (by rw [h']; simp)
  have h2 : b.bytes[b.pos + 2]? = some (v / 65536 % 256) :=
    getElem_of_drop_at b.bytes b.pos 2 _ (by rw [h']; simp)
  have h3 : b.bytes[b.pos + 3]? = some (v / 16777216 % 256) :=
    getElem_of_drop_at b.bytes b.pos 3 _ (by rw [h']; simp)
  have hlen : b.bytes.length - b.pos = rest.length + 4 := by
    have := congrArg List.length h'
    simpa [List.length_drop] using this
  have harith : v % 256 + 256 * (v / 256 % 256) + 65536 * (v / 65536 % 256)
      + 16777216 * (v / 16777216 % 256) = v % 4294967296 := by omega
  refine ⟨by simp [readU32, h0, h1, h2, h3, harith], ?_, by omega⟩
  rw [drop_shift, h']
  rfl

theorem readBytesN_ok (b : Buffer) (s rest : List Nat)
    (hp : b.pos ≤ b.bytes.length)
    (h : b.bytes.drop b.pos = s ++ rest) :
    readBytesN s.length b = some (s, { b with pos := b.pos + s.length }) ∧
    b.bytes.drop (b.pos + s.length) = rest ∧
    b.pos + s.length ≤ b.bytes.length := by
  have hlen : b.bytes.length - b.pos = s.length + rest.length := by
    have := congrArg List.length h
    simpa [List.length_drop] using this
  have hle : b.pos + s.length ≤ b.bytes.length := by omega
  refine ⟨?_, ?_, hle⟩
  · rw [readBytesN, if_pos hle, h]
    simp [List.take_left]
  · rw [drop_shift, h]
    simp [List.drop_left]

theorem readLPString_ok (b : Buffer) (s rest : List Nat)
    (hs : s.length < 65536)
    (h : b.bytes.drop b.pos = u16LE s.length ++ (s ++ rest)) :
    readLPString b = some (s, { b with pos := b.pos + 2 + s.length }) ∧
    b.bytes.drop (b.pos + 2 + s.length) = rest ∧
    b.pos + 2 + s.length ≤ b.bytes.length := by
  obtain ⟨e1, h1, hle1⟩ := readU16_ok b s.length (s ++ rest) h
  obtain ⟨e2, h2, hle2⟩ := readBytesN_ok { b with pos := b.pos + 2 } s rest
    (by simpa using hle1) (by simpa using h1)
  rw [Nat.mod_eq_of_lt hs] at e1
  refine ⟨?_, by simpa using h2, by simpa using hle2⟩
  rw [readLPString, e1]
  simp [e2]

theorem validStr_len {s : List Nat} (h : validStr s = true) :
    s.length < 65536 := by
  simp [validStr] at h
  exact h.1

theorem validStr_lp {s : List Nat} (h : validStr s = true) :
    lpStr s = u16LE s.length ++ s := by
  simp [validStr] at h
  unfold lpStr
  congr 1
  calc s.map (fun b => b % 256) = s.map id :=
        List.map_congr_left (fun b hb => Nat.mod_eq_of_lt (h.2 b hb))
    _ = s := List.map_id s

theorem decode_lp1 (b : Buffer) (s rest : List Nat)
    (hv : validStr s = true)
    (h : b.bytes.drop b.pos = lpStr s ++ rest) :
    readLPString b = some (s, { b with pos := b.pos + 2 + s.length }) ∧
    b.bytes.drop (b.pos + 2 + s.length) = rest ∧
    b.pos + 2 + s.length ≤ b.bytes.length := by
  rw [validStr_lp hv, List.append_assoc] at h
  exact readLPString_ok b s rest (validStr_len hv) h

theorem payloadCmd_small (p : Payload) : payloadCmd p % 256 = payloadCmd p := by
  cases p <;> rfl

theorem decodePayload_ok (p : Payload) (b : Buffer) (rest : List Nat)
    (hv : payloadValid p = true)
    (hp : b.pos ≤ b.bytes.length)
    (h : b.bytes.drop b.pos = payloadBytes p ++ rest) :
    ∃ b', decodePayload (payloadCmd p) b = some (p, b') ∧
      b'.bytes = b.bytes ∧ b'.bytes.drop b'.pos = rest ∧
      b'.pos ≤ b'.bytes.length := by
  cases p with
  | authenticate key =>
    simp only [payloadValid] at hv
    simp only [payloadBytes] at h
    obtain ⟨e1, h1, hle⟩ := decode_lp1 b key rest hv h
    refine ⟨_, by simp [decodePayload, payloadCmd, e1] <;> rfl, ?_, ?_, ?_⟩
    · rfl
    · simpa using h1
    · simpa using hle
  | connect =>
    refine ⟨b, by simp [decodePayload, payloadCmd], rfl, ?_, hp⟩
    simpa [payloadBytes] using h
  | disconnect =>
    refine ⟨b, by simp [decodePayload, payloadCmd], rfl, ?_, hp⟩
    simpa [payloadBytes] using h
  | sendMessage m =>
    simp only [payloadValid] at hv
    simp only [payloadBytes] at h
    obtain ⟨e1, h1, hle⟩ := decode_lp1 b m rest hv h
    refine ⟨_, by simp [decodePayload, payloadCmd, e1] <;> rfl, ?_, ?_, ?_⟩
    · rfl
    · simpa using h1
    · simpa using hle
  | sendEmote m =>
    simp only [payloadValid] at hv
    simp only [payloadBytes] at h
    obtain ⟨e1, h1, hle⟩ := decode_lp1 b m rest hv h
    refine ⟨_, by simp [decodePayload, payloadCmd, e1] <;> rfl, ?_, ?_, ?_⟩
    · rfl
    · simpa using h1
    · simpa using hle
  | sendWhisper m u =>
    simp only [payloadValid, Bool.and_eq_true] at hv
    obtain ⟨hm, hu⟩ := hv
    simp only [payloadBytes, List.append_assoc] at h
    obtain ⟨e1, h1, hle1⟩ := decode_lp1 b m (lpStr u ++ rest) hm h
    obtain ⟨e2, h2, hle2⟩ :=
      decode_lp1 { b with pos := b.pos + 2 + m.length } u rest hu
        (by simpa using h1)
    refine ⟨_, by simp [decodePayload, payloadCmd, e1, e2] <;> rfl, ?_, ?_, ?_⟩
    · rfl
    · simpa using h2
    · simpa using hle2
  | kickUser u =>
    simp only [payloadValid] at hv
    simp only [payloadBytes] at h
    obtain ⟨e1, h1, hle⟩ := decode_lp1 b u rest hv h
    refine ⟨_, by simp [decodePayload, payloadCmd, e1] <;> rfl, ?_, ?_, ?_⟩
    · rfl
    · simpa using h1
    · simpa using hle
  | banUser u =>
    simp only [payloadValid] at hv
    simp only [payloadBytes] at h
    obtain ⟨e1, h1, hle⟩ := decode_lp1 b u rest hv h
    refine ⟨_, by simp [decodePayload, payloadCmd, e1] <;> rfl, ?_, ?_, ?_⟩
    · rfl
    · simpa using h1
    · simpa using hle
  | unbanUser u =>
    simp only [payloadValid] at hv
    simp only [payloadBytes] at h
    obtain ⟨e1, h1, hle⟩ := decode_lp1 b u rest hv h
    refine ⟨_, by simp [decodePayload, payloadCmd, e1] <;> rfl, ?_, ?_, ?_⟩
    · rfl
    · simpa using h1
    · simpa using hle
  | setModerator u =>
    simp only [payloadValid] at hv
    simp only [payloadBytes] at h
    obtain ⟨e1, h1, hle⟩ := decode_lp1 b u rest hv h
    refine ⟨_, by simp [decodePayload, payloadCmd, e1] <;> rfl, ?_, ?_, ?_⟩
    · rfl
    · simpa using h1
    · simpa using hle
  | connectEvent ch =>
    simp only [payloadValid] at hv
    simp only [payloadBytes] at h
    obtain ⟨e1, h1, hle⟩ := decode_lp1 b ch rest hv h
    refine ⟨_, by simp [decodePayload, payloadCmd, e1] <;> rfl, ?_, ?_, ?_⟩
    · rfl
    · simpa using h1
    · simpa using hle
  | disconnectEvent =>
    refine ⟨b, by simp [decodePayload, payloadCmd], rfl, ?_, hp⟩
    simpa [payloadBytes] using h
  | messageEvent u m ty =>
    simp only [payloadValid, Bool.and_eq_true, decide_eq_true_eq] at hv
    obtain ⟨⟨hu, hm⟩, hty⟩ := hv
    simp only [payloadBytes, List.append_assoc] at h
    obtain ⟨e1, h1, hle1⟩ :=
      decode_lp1 b u (lpStr m ++ (u32LE ty ++ rest)) hu h
    obtain ⟨e2, h2, hle2⟩ :=
      decode_lp1 { b with pos := b.pos + 2 + u.length } m (u32LE ty ++ rest)
        hm (by simpa using h1)
    obtain ⟨e3, h3, hle3⟩ :=
      readU32_ok { { b with pos := b.pos + 2 + u.length } with
        pos := b.pos + 2 + u.length + 2 + m.length } ty rest
        (by simpa using h2)
    rw [Nat.mod_eq_of_lt hty] at e3
    refine ⟨_, by simp [decodePayload, payloadCmd, e1, e2, e3] <;> rfl, ?_, ?_, ?_⟩
    · rfl
    · simpa using h3
    · simpa using hle3
  | userUpdateEvent u un fl pid rate rank wins =>
    simp only [payloadValid, Bool.and_eq_true, decide_eq_true_eq] at hv
    obtain ⟨⟨⟨⟨⟨⟨hu, hun⟩, hfl⟩, hpid⟩, hrate⟩, hrank⟩, hwins⟩ := hv
    simp only [payloadBytes, List.append_assoc] at h
    obtain ⟨e1, h1, hle1⟩ := decode_lp1 b u _ hu h
    obtain ⟨e2, h2, hle2⟩ :=
      decode_lp1 { b with pos := b.pos + 2 + u.length } un _ hun
        (by simpa using h1)
    obtain ⟨e3, h3, hle3⟩ :=
      readU32_ok { { b with pos := b.pos + 2 + u.length } with
        pos := b.pos + 2 + u.length + 2 + un.length } fl _
        (by simpa using h2)
    rw [Nat.mod_eq_of_lt hfl] at e3
    obtain ⟨e4, h4, hle4⟩ :=
      decode_lp1 { { { b with pos := b.pos + 2 + u.length } with
        pos := b.pos + 2 + u.length + 2 + un.length } with
        pos := b.pos + 2 + u.length + 2 + un.length + 4 } pid _ hpid
        (by simpa using h3)
    obtain ⟨e5, h5, hle5⟩ :=
      decode_lp1 { { { { b with pos := b.pos + 2 + u.length } with
        pos := b.pos + 2 + u.length + 2 + un.length } with
        pos := b.pos + 2 + u.length + 2 + un.length + 4 } with
        pos := b.pos + 2 + u.length + 2 + un.length + 4 + 2 + pid.length }
        rate _ hrate (by simpa using h4)
    obtain ⟨e6, h6, hle6⟩ :=
      decode_lp1 { { { { { b with pos := b.pos + 2 + u.length } with
        pos := b.pos + 2 + u.length + 2 + un.length } with
        pos := b.pos + 2 + u.length + 2 + un.length + 4 } with
        pos := b.pos + 2 + u.length + 2 + un.length + 4 + 2 + pid.length }
        with pos := b.pos + 2 + u.length + 2 + un.length + 4 + 2 +
          pid.length + 2 + rate.length } rank _ hrank (by simpa using h5)
    obtain ⟨e7, h7, hle7⟩ :=
      decode_lp1 { { { { { { b with pos := b.pos + 2 + u.length } with
        pos := b.pos + 2 + u.length + 2 + un.length } with
        pos := b.pos + 2 + u.length + 2 + un.length + 4 } with
        pos := b.pos + 2 + u.length + 2 + un.length + 4 + 2 + pid.length }
        with pos := b.pos + 2 + u.length + 2 + un.length + 4 + 2 +
          pid.length + 2 + rate.length } with
        pos := b.pos + 2 + u.length + 2 + un.length + 4 + 2 +
          pid.length + 2 + rate.length + 2 + rank.length } wins rest hwins
        (by simpa using h6)
    refine ⟨_,
      by simp [decodePayload, payloadCmd, e1, e2, e3, e4, e5, e6, e7] <;> rfl,
      ?_, ?_, ?_⟩
    · rfl
    · simpa using h7
    · simpa using hle7
  | userLeaveEvent =>
    refine ⟨b, by simp [decodePayload, payloadCmd], rfl, ?_, hp⟩
    simpa [payloadBytes] using h
  | response =>
    refine ⟨b, by simp [decodePayload, payloadCmd], rfl, ?_, hp⟩
    simpa [payloadBytes] using h

end capi

/-- Witness for C10: a message that is a single bell control character is
filtered to the empty message, and `Say` on it succeeds without sending. -/
theorem say_emptyFilter_witness :
    Say (fun l => l) isPrint0 [0x07] (mkWorld []) = (none, mkWorld []) ∧
    (Say (fun l => l) isPrint0 [0x07] (mkWorld [])).2.sent =
      (mkWorld []).sent :=
  say_emptyFilter (fun l => l) isPrint0 [0x07] (mkWorld []) (by decide)

namespace capi

theorem SerializePacket_empty (pkt : Packet) :
    SerializePacket emptyBuffer pkt =
      { bytes := capiSig :: payloadCmd pkt.payload ::
          (u32LE (bodyBytes pkt).length ++ bodyBytes pkt), pos := 0 } := by
  simp [SerializePacket, emptyBuffer, writeU8, writeU32, writeBytes,
    setU32At, payloadCmd_small, capiSig, u32LE, List.take_succ_cons,
    List.take_zero, List.drop_succ_cons, List.drop_zero]

/-- C2: for every packet of the capi family with well-formed fields,
serializing into an empty buffer and deserializing the result succeeds,
returns a packet equal to the original, and leaves zero unread bytes. -/
theorem capi_roundtrip (pkt : Packet) (h : pktValid pkt = true) :
    ∃ b', DeserializePacket (SerializePacket emptyBuffer pkt) =
        some (pkt, b') ∧ b'.Size = 0 := by
  obtain ⟨reqID, st, p⟩ := pkt
  simp only [pktValid, Bool.and_eq_true, decide_eq_true_eq] at h
  obtain ⟨⟨hreq, hst⟩, hpv⟩ := h
  have hbody : bodyBytes ⟨reqID, st, p⟩ =
      u32LE reqID ++ (st :: payloadBytes p) := by
    simp [bodyBytes, Nat.mod_eq_of_lt hst]
  rw [SerializePacket_empty, hbody]
  dsimp only
  set B := u32LE reqID ++ (st :: payloadBytes p) with hBdef
  set F := capiSig :: (payloadCmd p :: (u32LE B.length ++ B)) with hFdef
  obtain ⟨e1, h1, hp1⟩ := readU8_ok ⟨F, 0⟩ capiSig
    (payloadCmd p :: (u32LE B.length ++ B)) (by simp)
  have e1' : readU8 ⟨F, 0⟩ = some (capiSig, ⟨F, 1⟩) := e1
  have h1' : F.drop 1 = payloadCmd p :: (u32LE B.length ++ B) := h1
  obtain ⟨e2, h2, hp2⟩ := readU8_ok ⟨F, 1⟩ (payloadCmd p)
    (u32LE B.length ++ B) h1'
  have e2' : readU8 ⟨F, 1⟩ = some (payloadCmd p, ⟨F, 2⟩) := e2
  have h2' : F.drop 2 = u32LE B.length ++ B := h2
  obtain ⟨e3, h3, hp3⟩ := readU32_ok ⟨F, 2⟩ B.length B h2'
  have e3' : readU32 ⟨F, 2⟩ = some (B.length % 4294967296, ⟨F, 6⟩) := e3
  have h3' : F.drop 6 = B := h3
  have hsize : (⟨F, 6⟩ : Buffer).Size = B.length := by
    have := congrArg List.length h3'
    simpa [Buffer.Size, List.length_drop] using this
  have hguard : ¬ ((⟨F, 6⟩ : Buffer).Size < B.length % 4294967296) := by
    rw [hsize]
    exact Nat.not_lt.mpr (Nat.mod_le _ _)
  have h3B : F.drop 6 = u32LE reqID ++ (st :: payloadBytes p) := by
    rw [h3', hBdef]
  obtain ⟨e4, h4, hp4⟩ := readU32_ok ⟨F, 6⟩ reqID (st :: payloadBytes p) h3B
  have e4' : readU32 ⟨F, 6⟩ = some (reqID % 4294967296, ⟨F, 10⟩) := e4
  rw [Nat.mod_eq_of_lt hreq] at e4'
  have h4' : F.drop 10 = st :: payloadBytes p := h4
  obtain ⟨e5, h5, hp5⟩ := readU8_ok ⟨F, 10⟩ st (payloadBytes p) h4'
  have e5' : readU8 ⟨F, 10⟩ = some (st, ⟨F, 11⟩) := e5
  have h5' : F.drop 11 = payloadBytes p := h5
  have hp5' : 11 ≤ F.length := hp5
  obtain ⟨b', e6, hb1, hb2, hb3⟩ :=
    decodePayload_ok p ⟨F, 11⟩ [] hpv hp5' (by simpa using h5')
  refine ⟨b', ?_, ?_⟩
  · simp [DeserializePacket, e1', e2', e3', e4', e5', e6, hguard]
  · have hz := congrArg List.length hb2
    simp [List.length_drop] at hz
    simp [Buffer.Size]
    omega

/-- Witness for C2: a whisper packet with concrete ASCII fields
round-trips through the model codec with zero unread bytes. -/
theorem capi_roundtrip_witness :
    pktValid (Packet.mk 123 0 (.sendWhisper [72, 105] [85, 49])) = true ∧
    ∃ b', DeserializePacket (SerializePacket emptyBuffer
        (Packet.mk 123 0 (.sendWhisper [72, 105] [85, 49]))) =
        some (Packet.mk 123 0 (.sendWhisper [72, 105] [85, 49]), b') ∧
      b'.Size = 0 :=
  ⟨by decide, capi_roundtrip
    (Packet.mk 123 0 (.sendWhisper [72, 105] [85, 49])) (by decide)⟩

end capi

end GW3
